import Mathlib

/-!
# cltransform: host-side dispatch layer and per-pixel kernels

A shallow embedding of `cltransform.go`.

* The Go host code (`NewEnv`, `initAndPrepCL`, `call`, `NewWImage`, `NewImage`,
  `createSDLSurface`, `callWrap`, `Scale`, `Flip`) is embedded as explicit
  state passing over a log of the OpenCL / SDL library calls it performs.  The
  libraries themselves are not part of the repository; their answers are given
  by a `Runtime`, whose every answer may depend on the whole history of calls.
* A Go result `(T, error)` is a `Ret`: both components are kept, since Go can
  return a non-nil value together with a non-nil error, and a run-time panic is
  a third outcome.
* A Go `float32` is a `Float32`: a finite rational, a negative zero, an
  infinity or a NaN.  Host arithmetic takes a `FloatMode`: `binary32` rounds
  every result to the nearest binary32 value, ties to even, as Go does;
  `exact` is the idealised arithmetic without rounding.
* The OpenCL C kernels are embedded as per-pixel functions from the work-item
  id to the pixel written; their `float` values are rationals and their
  arithmetic is exact.
-/

namespace Cltransform

/-! ## Go values -/

/-- An error value produced by the OpenCL binding. -/
structure ClError where
  code : Int
  deriving DecidableEq

/-- A Go `error`: made by `errors.New` in this package, or handed over by the
OpenCL binding. -/
inductive GoError where
  | new (msg : String)
  | cl (e : ClError)
  deriving DecidableEq

/-- The outcome of a Go function of result type `(T, error)`: the two returned
components (`none` is `nil`), or a run-time panic. -/
inductive Ret (α : Type) where
  | ret (val : Option α) (err : Option GoError)
  | panicked
  deriving DecidableEq

/-- The outcome of a Go function of result type `error`. -/
inductive ErrRet where
  | ret (err : Option GoError)
  | panicked
  deriving DecidableEq

/-- Conversion `uint32(i)` of a Go signed integer. -/
def uint32 (i : Int) : Nat := (i % 2 ^ 32).toNat

/-- Truncation toward zero of a rational. -/
def truncate (q : ℚ) : Int := Int.tdiv q.num q.den

/-! ## `float32` -/

/-- The arithmetic of the host: Go's binary32, or arithmetic without
rounding. -/
inductive FloatMode where
  | binary32
  | exact
  deriving DecidableEq

/-- A `float32` value.  `finite 0` is the positive zero. -/
inductive Float32 where
  | finite (q : ℚ)
  | negZero
  | inf (negative : Bool)
  | nan
  deriving DecidableEq

/-- The sign bit. -/
def Float32.isNeg : Float32 → Bool
  | .finite q => decide (q < 0)
  | .negZero => true
  | .inf negative => negative
  | .nan => false

/-- Whether the value is a zero. -/
def Float32.isZero : Float32 → Bool
  | .finite q => decide (q = 0)
  | .negZero => true
  | _ => false

/-- The rational a finite value stands for (0 for the others). -/
def Float32.value : Float32 → ℚ
  | .finite q => q
  | _ => 0

/-- Rounding of a rational to the nearest integer, ties to even. -/
def roundHalfEven (q : ℚ) : Int :=
  if q - ⌊q⌋ < 1 / 2 then ⌊q⌋
  else if 1 / 2 < q - ⌊q⌋ then ⌊q⌋ + 1
  else if ⌊q⌋ % 2 = 0 then ⌊q⌋ else ⌊q⌋ + 1

/-- The zero of sign `neg`. -/
def Float32.zero (neg : Bool) : Float32 :=
  if neg then .negZero else .finite 0

/-- Rounding of the exact result `q` to binary32, to nearest with ties to
even: 24 significant bits, exponents from -126 (below it the spacing stays
2^-149), overflow to an infinity from 2^128 on.  `neg` is the sign of an
exact zero. -/
def roundBinary32 (neg : Bool) (q : ℚ) : Float32 :=
  if q = 0 then Float32.zero neg
  else
    let e : Int := max (Int.log 2 |q|) (-126)
    let ulp : ℚ := 2 ^ (e - 23)
    let r : ℚ := (roundHalfEven (q / ulp) : ℚ) * ulp
    if 2 ^ 128 ≤ |r| then .inf (decide (q < 0))
    else if r = 0 then Float32.zero (decide (q < 0))
    else .finite r

/-- The result of an operation whose exact value is `q`. -/
def Float32.round (mode : FloatMode) (neg : Bool) (q : ℚ) : Float32 :=
  match mode with
  | .binary32 => roundBinary32 neg q
  | .exact => if q = 0 then Float32.zero neg else .finite q

/-- Conversion `float32(i)` of a Go integer. -/
def Float32.ofInt (mode : FloatMode) (i : Int) : Float32 :=
  Float32.round mode false (i : ℚ)

/-- The product `a * b`. -/
def Float32.mul (mode : FloatMode) (a b : Float32) : Float32 :=
  match a, b with
  | .nan, _ => .nan
  | _, .nan => .nan
  | .inf n, b => if b.isZero then .nan else .inf (xor n b.isNeg)
  | a, .inf n => if a.isZero then .nan else .inf (xor a.isNeg n)
  | a, b => Float32.round mode (xor a.isNeg b.isNeg) (a.value * b.value)

/-- The quotient `a / b`. -/
def Float32.div (mode : FloatMode) (a b : Float32) : Float32 :=
  match a, b with
  | .nan, _ => .nan
  | _, .nan => .nan
  | .inf _, .inf _ => .nan
  | .inf n, b => .inf (xor n b.isNeg)
  | a, .inf n => Float32.zero (xor a.isNeg n)
  | a, b =>
    if b.isZero then
      if a.isZero then .nan else .inf (xor a.isNeg b.isNeg)
    else Float32.round mode (xor a.isNeg b.isNeg) (a.value / b.value)

/-! ## SDL surfaces -/

/-- The fields of `sdl.PixelFormat` the package reads. -/
structure PixelFormat where
  BitsPerPixel : Nat
  BytesPerPixel : Nat
  Rmask : Nat
  Gmask : Nat
  Bmask : Nat
  Amask : Nat
  deriving DecidableEq

/-- The fields of `sdl.Surface` the package reads: `W`, `H` are `int32`,
`Pitch` is `uint16`, `Pixels` is the host byte buffer. -/
structure Surface where
  Format : PixelFormat
  W : Int
  H : Int
  Pitch : Nat
  Pixels : List Nat
  deriving DecidableEq

/-! ## The library calls -/

/-- An OpenCL device as seen by `NewEnv`. -/
structure DeviceInfo where
  id : Nat
  /-- What `Property(cl.DEVICE_IMAGE_SUPPORT)` answers. -/
  imageSupport : Bool
  deriving DecidableEq

/-- A `cl.Platform`. -/
structure Platform where
  Devices : List DeviceInfo
  deriving DecidableEq

/-- Memory flags of `NewImage2D`. -/
inductive MemFlag where
  | MEM_WRITE_ONLY
  | MEM_READ_ONLY
  | MEM_COPY_HOST_PTR
  deriving DecidableEq

/-- Command-queue properties. -/
inductive QueueProp where
  | QUEUE_PROFILING_ENABLE
  | QUEUE_OUT_OF_ORDER_EXEC_MODE_ENABLE
  deriving DecidableEq

/-- A value bound to a kernel argument: an image handle or a `float32`. -/
inductive Arg where
  | image (handle : Nat)
  | float32 (f : Float32)
  deriving DecidableEq

/-- One call into the OpenCL binding, SDL or `sync.Mutex`, with its arguments.
Handles (context, queue, program, kernel, image) are natural numbers. -/
inductive Cmd where
  | NewContextOfDevices (devices : List DeviceInfo)
  | NewCommandQueue (c : Nat) (device : DeviceInfo) (props : List QueueProp)
  | NewProgramFromSource (c : Nat)
  | NewKernelNamed (p : Nat) (name : String)
  | NewImage2D (c : Nat) (flags : List MemFlag) (w h pitch : Nat) (host : Option (List Nat))
  | SetArg (k : Nat) (index : Nat) (v : Arg)
  | EnqueueKernel (cq k : Nat) (offset gsize lsize : List Nat)
  | EnqueueReadImage (cq img : Nat) (origin region : List Nat) (rowPitch slicePitch : Nat)
  | CreateRGBSurfaceFrom (pixels : List Nat) (w h bpp pitch : Int) (r g b a : Nat)
  | Lock
  | Unlock
  deriving DecidableEq

/-- The world outside the package.  Every answer is a function of the log of
calls made so far, the call being answered last in it. -/
structure Runtime where
  /-- Answer of `cl.GetPlatforms()`. -/
  GetPlatforms : List Platform
  NewContextOfDevices : List Cmd → Except ClError Nat
  NewCommandQueue : List Cmd → Except ClError Nat
  NewProgramFromSource : List Cmd → Except ClError Nat
  NewKernelNamed : List Cmd → Except ClError Nat
  NewImage2D : List Cmd → Except ClError Nat
  SetArg : List Cmd → Option ClError
  EnqueueKernel : List Cmd → Option ClError
  EnqueueReadImage : List Cmd → Except ClError (List Nat)
  /-- Answer of `sdl.CreateRGBSurfaceFrom`: `none` is the nil surface. -/
  CreateRGBSurfaceFrom : List Cmd → Option Surface
  /-- Answer of `sdl.GetError()`. -/
  GetError : List Cmd → String
  /-- Go leaves `uint32(f)` implementation-dependent when the truncated float
  is not representable; this is the value the implementation picks. -/
  uint32OutOfRange : Float32 → Nat

/-- Conversion `uint32(f)` of a Go `float32`: truncation toward zero when the
result is representable. -/
def Runtime.uint32OfFloat (rt : Runtime) (f : Float32) : Nat :=
  match f with
  | .finite q =>
    if 0 ≤ truncate q ∧ truncate q < 2 ^ 32 then (truncate q).toNat
    else rt.uint32OutOfRange f % 2 ^ 32
  | .negZero => 0
  | _ => rt.uint32OutOfRange f % 2 ^ 32

/-! ## The environment -/

/-- The seven kernel names. -/
def kernelNames : List String :=
  ["image_recscale", "image_rotate",
   "image_flip_h", "image_flip_v", "image_flip_hv",
   "image_affine", "image_affine2"]

/-- The struct `Env`.  Pointer fields are `Option`s (`none` is `nil`); the map
`kernels` is an association list whose values are possibly-nil kernel
pointers.  The field `lock` carries no data. -/
structure Env where
  platform : Platform
  c : Option Nat
  cq : Option Nat
  p : Option Nat
  kernels : List (String × Option Nat)
  deriving DecidableEq

/-- Map assignment `m[name] = k`. -/
def mapSet (m : List (String × Option Nat)) (name : String) (k : Option Nat) :
    List (String × Option Nat) :=
  (name, k) :: m.filter (fun kv => kv.1 != name)

/-- The closure `addKernel` of `initAndPrepCL`: the map entry is written
whether or not the lookup succeeded. -/
def addKernel (rt : Runtime) (p : Nat) (e : Env) (name : String) (log : List Cmd) :
    (Env × Option GoError) × List Cmd :=
  let log1 := log ++ [Cmd.NewKernelNamed p name]
  match rt.NewKernelNamed log1 with
  | .error err => (({ e with kernels := mapSet e.kernels name none }, some (.cl err)), log1)
  | .ok k => (({ e with kernels := mapSet e.kernels name (some k) }, none), log1)

/-- The loop `for _, kernelName := range kernelNames` of `initAndPrepCL`. -/
def addKernels (rt : Runtime) (p : Nat) :
    List String → Env → List Cmd → (Env × Option GoError) × List Cmd
  | [], e, log => ((e, none), log)
  | name :: names, e, log =>
    match addKernel rt p e name log with
    | ((e1, some err), log1) => ((e1, some err), log1)
    | ((e1, none), log1) => addKernels rt p names e1 log1

/-- The method `initAndPrepCL`: returns the mutated `Env` and the error. -/
def Env.initAndPrepCL (rt : Runtime) (e : Env) (log : List Cmd) :
    (Env × ErrRet) × List Cmd :=
  match e.platform.Devices with
  | [] => ((e, .panicked), log)
  | dev :: _ =>
    let log1 := log ++ [Cmd.NewContextOfDevices [dev]]
    match rt.NewContextOfDevices log1 with
    | .error err => (({ e with c := none }, .ret (some (.cl err))), log1)
    | .ok c =>
      let e1 := { e with c := some c }
      let log2 := log1 ++ [Cmd.NewCommandQueue c dev
        [.QUEUE_PROFILING_ENABLE, .QUEUE_OUT_OF_ORDER_EXEC_MODE_ENABLE]]
      match rt.NewCommandQueue log2 with
      | .error err => (({ e1 with cq := none }, .ret (some (.cl err))), log2)
      | .ok cq =>
        let e2 := { e1 with cq := some cq }
        let log3 := log2 ++ [Cmd.NewProgramFromSource c]
        match rt.NewProgramFromSource log3 with
        | .error err => (({ e2 with p := none }, .ret (some (.cl err))), log3)
        | .ok p =>
          let e3 := { e2 with p := some p }
          match addKernels rt p kernelNames e3 log3 with
          | ((e4, err), log4) => ((e4, .ret err), log4)

/-- The function `NewEnv`. -/
def NewEnv (rt : Runtime) (log : List Cmd) : Ret Env × List Cmd :=
  match rt.GetPlatforms with
  | [] => (.panicked, log)
  | platform :: _ =>
    let e : Env := { platform := platform, c := none, cq := none, p := none, kernels := [] }
    match platform.Devices with
    | [] => (.panicked, log)
    | dev :: _ =>
      if dev.imageSupport == false then
        (.ret none (some (.new "Your device doesn\x27t support images through OpenCL")), log)
      else
        match e.initAndPrepCL rt log with
        | ((_, .panicked), log1) => (.panicked, log1)
        | ((e1, .ret err), log1) => (.ret (some e1) err, log1)

/-! ## The dispatcher -/

/-- The loop `for i, v := range va` of `call`, from index `i` on. -/
def setExtraArgs (rt : Runtime) (k : Nat) :
    Nat → List Arg → List Cmd → Option ClError × List Cmd
  | _, [], log => (none, log)
  | i, v :: va, log =>
    let log1 := log ++ [Cmd.SetArg k (i + 2) v]
    match rt.SetArg log1 with
    | some err => (some err, log1)
    | none => setExtraArgs rt k (i + 1) va log1

/-- The method `call`. -/
def Env.call (rt : Runtime) (e : Env) (dstW dstH : Nat) (kernelName : String)
    (src dst : Nat) (va : List Arg) (log : List Cmd) : Ret (List Nat) × List Cmd :=
  match e.kernels.lookup kernelName with
  | none => (.ret none (some (.new ("Unknown kernel " ++ kernelName))), log)
  | some none => (.panicked, log)
  | some (some k) =>
    let log1 := log ++ [Cmd.SetArg k 0 (.image src)]
    match rt.SetArg log1 with
    | some err => (.ret none (some (.cl err)), log1)
    | none =>
      let log2 := log1 ++ [Cmd.SetArg k 1 (.image dst)]
      match rt.SetArg log2 with
      | some err => (.ret none (some (.cl err)), log2)
      | none =>
        match setExtraArgs rt k 0 va log2 with
        | (some err, log3) => (.ret none (some (.cl err)), log3)
        | (none, log3) =>
          match e.cq with
          | none => (.panicked, log3)
          | some cq =>
            let log4 := log3 ++ [Cmd.EnqueueKernel cq k [] [dstW, dstH] []]
            match rt.EnqueueKernel log4 with
            | some err => (.ret none (some (.cl err)), log4)
            | none =>
              let log5 := log4 ++ [Cmd.EnqueueReadImage cq dst [0, 0, 0] [dstW, dstH, 1] 0 0]
              match rt.EnqueueReadImage log5 with
              | .error err => (.ret none (some (.cl err)), log5)
              | .ok pixels => (.ret (some pixels) none, log5)

/-- The struct `Image`. -/
structure Image where
  clImage : Nat
  s : Option Surface
  pixels : List Nat
  w : Nat
  h : Nat
  deriving DecidableEq

/-- The method `NewWImage`. -/
def Env.NewWImage (rt : Runtime) (e : Env) (w h : Nat) (log : List Cmd) :
    Ret Image × List Cmd :=
  match e.c with
  | none => (.panicked, log)
  | some c =>
    let log1 := log ++ [Cmd.NewImage2D c [.MEM_WRITE_ONLY] w h 0 none]
    match rt.NewImage2D log1 with
    | .error err => (.ret none (some (.cl err)), log1)
    | .ok img => (.ret (some { clImage := img, s := none, pixels := [], w := w, h := h }) none, log1)

/-- The method `NewImage`. -/
def Env.NewImage (rt : Runtime) (e : Env) (s : Surface) (log : List Cmd) :
    Ret Image × List Cmd :=
  if s.Format.BytesPerPixel ≠ 3 then
    (.ret none (some (.new "Unsupported image format")), log)
  else
    match e.c with
    | none => (.panicked, log)
    | some c =>
      let log1 := log ++ [Cmd.NewImage2D c [.MEM_READ_ONLY, .MEM_COPY_HOST_PTR]
        (uint32 s.W) (uint32 s.H) s.Pitch (some s.Pixels)]
      match rt.NewImage2D log1 with
      | .error err => (.ret none (some (.cl err)), log1)
      | .ok clImg =>
        (.ret (some { clImage := clImg, s := some s, pixels := [], w := 0, h := 0 }) none, log1)

/-- The method `createSDLSurface`: `&img.pixels[0]` panics on an empty
buffer. -/
def Image.createSDLSurface (rt : Runtime) (img : Image) (f : PixelFormat) (log : List Cmd) :
    Ret Surface × List Cmd :=
  let pitch : Nat := (f.BytesPerPixel * img.w) % 2 ^ 32
  let log1 := log ++ [Cmd.CreateRGBSurfaceFrom img.pixels img.w img.h f.BitsPerPixel pitch
    f.Rmask f.Gmask f.Bmask f.Amask]
  match rt.CreateRGBSurfaceFrom log1 with
  | none => (.ret none (some (.new (rt.GetError log1))), log1)
  | some s =>
    match img.pixels with
    | [] => (.panicked, log1)
    | _ :: _ => (.ret (some { s with Pixels := img.pixels }) none, log1)

/-- The method `callWrap`.  The error of `NewWImage` is overwritten unread; a
nil `dst` panics when `dst.clImage` is evaluated, before `call` runs. -/
def Env.callWrap (rt : Runtime) (e : Env) (dstW dstH : Nat) (kernelName : String)
    (s : Surface) (va : List Arg) (log : List Cmd) : Ret Surface × List Cmd :=
  match e.NewImage rt s log with
  | (.panicked, log1) => (.panicked, log1)
  | (.ret _ (some err), log1) => (.ret none (some err), log1)
  | (.ret none none, log1) => (.panicked, log1)
  | (.ret (some src) none, log1) =>
    match e.NewWImage rt dstW dstH log1 with
    | (.panicked, log2) => (.panicked, log2)
    | (.ret none _, log2) => (.panicked, log2)
    | (.ret (some dst) _, log2) =>
      match e.call rt dstW dstH kernelName src.clImage dst.clImage va log2 with
      | (.panicked, log3) => (.panicked, log3)
      | (.ret _ (some err), log3) => (.ret none (some err), log3)
      | (.ret pixels none, log3) =>
        let dst1 := { dst with pixels := pixels.getD [] }
        match dst1.createSDLSurface rt s.Format log3 with
        | (.panicked, log4) => (.panicked, log4)
        | (.ret _ (some err), log4) => (.ret none (some err), log4)
        | (.ret news none, log4) => (.ret news none, log4)

/-- The method `Scale`, under the float arithmetic `mode` (Go's is
`binary32`): `float32(s.W)*factorx` and `float32(1)/factorx` are each rounded
as `mode` says. -/
def Env.Scale (rt : Runtime) (mode : FloatMode) (e : Env) (s : Surface)
    (factorx factory : Float32) (log : List Cmd) : Ret Surface × List Cmd :=
  let w := rt.uint32OfFloat (Float32.mul mode (Float32.ofInt mode s.W) factorx)
  let h := rt.uint32OfFloat (Float32.mul mode (Float32.ofInt mode s.H) factory)
  e.callWrap rt w h "image_recscale" s
    [.float32 (Float32.div mode (.finite 1) factorx),
     .float32 (Float32.div mode (.finite 1) factory)] log

/-- The method `Flip`. -/
def Env.Flip (rt : Runtime) (e : Env) (s : Surface) (horizontal vertical : Bool)
    (log : List Cmd) : Ret Surface × List Cmd :=
  let w := uint32 s.W
  let h := uint32 s.H
  if horizontal && vertical then
    e.callWrap rt w h "image_flip_hv" s [] log
  else if horizontal then
    e.callWrap rt w h "image_flip_h" s [] log
  else if vertical then
    e.callWrap rt w h "image_flip_v" s [] log
  else
    (.ret (some s) none, log)

/-! ## The kernels -/

/-- A device image: its size and its pixel at column `x`, row `y`. -/
structure image2d_t (α : Type) where
  width : Nat
  height : Nat
  pixel : Nat → Nat → α

/-- The addressing mode of a sampler. -/
inductive AddressingMode where
  | CLK_ADDRESS_CLAMP
  | CLK_ADDRESS_CLAMP_TO_EDGE
  deriving DecidableEq

/-- The OpenCL built-in `read_imageui(src, sampler, int2 q)` for a sampler with
unnormalised coordinates and the nearest filter.  An out-of-range coordinate
reads `border` under `CLK_ADDRESS_CLAMP` and the nearest in-bounds pixel under
`CLK_ADDRESS_CLAMP_TO_EDGE`. -/
def read_imageui {α : Type} (mode : AddressingMode) (border : α) (src : image2d_t α)
    (q : Int × Int) : α :=
  match mode with
  | .CLK_ADDRESS_CLAMP =>
    if 0 ≤ q.1 ∧ q.1 < src.width ∧ 0 ≤ q.2 ∧ q.2 < src.height then
      src.pixel q.1.toNat q.2.toNat
    else border
  | .CLK_ADDRESS_CLAMP_TO_EDGE =>
    src.pixel (min (max q.1 0) (src.width - 1)).toNat (min (max q.2 0) (src.height - 1)).toNat

/-- The addressing mode of the sampler `nearest` of `kernelSource`. -/
def nearest : AddressingMode := .CLK_ADDRESS_CLAMP

/-- Kernel `image_flip_h`: the pixel written at work-item `p`. -/
def image_flip_h {α : Type} (read : image2d_t α → Int × Int → α) (src : image2d_t α)
    (p : Int × Int) : α :=
  let q : Int × Int := ((src.width : Int) - p.1, p.2)
  read src q

/-- Kernel `image_flip_v`: the pixel written at work-item `p`. -/
def image_flip_v {α : Type} (read : image2d_t α → Int × Int → α) (src : image2d_t α)
    (p : Int × Int) : α :=
  let q : Int × Int := (p.1, (src.height : Int) - p.2)
  read src q

/-- Kernel `image_flip_hv`: the pixel written at work-item `p`. -/
def image_flip_hv {α : Type} (read : image2d_t α → Int × Int → α) (src : image2d_t α)
    (p : Int × Int) : α :=
  let q : Int × Int := ((src.width : Int) - p.1, (src.height : Int) - p.2)
  read src q

/-- The destination image after a dispatch over the grid `w × h`, row by row:
entry `x` of row `y` is what work-item `(x, y)` wrote. -/
def dispatch {α : Type} (w h : Nat) (kernel : Int × Int → α) : List (List α) :=
  (List.range h).map fun y => (List.range w).map fun x => kernel ((x : Int), (y : Int))

/-- The device image holding the rows `rows`. -/
def imageOfRows {α : Type} (dflt : α) (w h : Nat) (rows : List (List α)) : image2d_t α :=
  { width := w, height := h, pixel := fun x y => (rows.getD y []).getD x dflt }

/-- The OpenCL built-in `dot` on `float2`. -/
def dot (a b : ℚ × ℚ) : ℚ := a.1 * b.1 + a.2 * b.2

/-- The OpenCL built-in `convert_float2` on `int2`. -/
def convert_float2 (p : Int × Int) : ℚ × ℚ := ((p.1 : ℚ), (p.2 : ℚ))

/-- Kernel `image_recscale`: the coordinate `q` sampled at work-item `p`. -/
def image_recscale_q (recfactorx recfactory : ℚ) (p : Int × Int) : ℚ × ℚ :=
  ((p.1 : ℚ) * recfactorx, (p.2 : ℚ) * recfactory)

/-- Kernel `image_recscale`: the pixel written at work-item `p`; `read` is
`read_imageui` with the sampler `linear`. -/
def image_recscale {α : Type} (read : image2d_t α → ℚ × ℚ → α) (src : image2d_t α)
    (recfactorx recfactory : ℚ) (p : Int × Int) : α :=
  read src (image_recscale_q recfactorx recfactory p)

/-- Kernel `image_affine`: the coordinate `q` sampled at work-item `p`. -/
def image_affine_q (Ax Ay : ℚ × ℚ) (p : Int × Int) : ℚ × ℚ :=
  let pf := convert_float2 p
  (dot Ax pf, dot Ay pf)

/-- Kernel `image_affine`: the pixel written at work-item `p`. -/
def image_affine {α : Type} (read : image2d_t α → ℚ × ℚ → α) (src : image2d_t α)
    (Ax Ay : ℚ × ℚ) (p : Int × Int) : α :=
  read src (image_affine_q Ax Ay p)

/-- Kernel `image_affine2`: the coordinate `q` sampled at work-item `p`. -/
def image_affine2_q (Ax Ay p0 q0 : ℚ × ℚ) (p : Int × Int) : ℚ × ℚ :=
  let pf := convert_float2 p
  let pf := (pf.1 - p0.1, pf.2 - p0.2)
  let q := (dot Ax pf, dot Ay pf)
  (q.1 + q0.1, q.2 + q0.2)

/-- Kernel `image_affine2`: the pixel written at work-item `p`. -/
def image_affine2 {α : Type} (read : image2d_t α → ℚ × ℚ → α) (src : image2d_t α)
    (Ax Ay p0 q0 : ℚ × ℚ) (p : Int × Int) : α :=
  read src (image_affine2_q Ax Ay p0 q0 p)

/-! ## Concrete inputs -/

/-- A runtime with one image-capable device on which no call fails: handles
are the length of the log, a read yields zero bytes, three per pixel of the
region, and the surface made from a buffer has the size, format and bytes it
was asked for. -/
def okRuntime : Runtime where
  GetPlatforms := [{ Devices := [{ id := 0, imageSupport := true }] }]
  NewContextOfDevices := fun log => .ok log.length
  NewCommandQueue := fun log => .ok log.length
  NewProgramFromSource := fun log => .ok log.length
  NewKernelNamed := fun log => .ok log.length
  NewImage2D := fun log => .ok log.length
  SetArg := fun _ => none
  EnqueueKernel := fun _ => none
  EnqueueReadImage := fun log =>
    match log.getLast? with
    | some (.EnqueueReadImage _ _ _ [w, h, _] _ _) => .ok (List.replicate (3 * w * h) 0)
    | _ => .ok []
  CreateRGBSurfaceFrom := fun log =>
    match log.getLast? with
    | some (.CreateRGBSurfaceFrom px w h bpp pitch r g b a) =>
      some { Format := { BitsPerPixel := bpp.toNat, BytesPerPixel := bpp.toNat / 8,
                         Rmask := r, Gmask := g, Bmask := b, Amask := a },
             W := w, H := h, Pitch := pitch.toNat, Pixels := px }
    | _ => none
  GetError := fun _ => ""
  uint32OutOfRange := fun _ => 0

/-- The environment `NewEnv` builds on `okRuntime`. -/
def okEnv : Env where
  platform := { Devices := [{ id := 0, imageSupport := true }] }
  c := some 1
  cq := some 2
  p := some 3
  kernels := [("image_affine2", some 10), ("image_affine", some 9), ("image_flip_hv", some 8),
    ("image_flip_v", some 7), ("image_flip_h", some 6), ("image_rotate", some 5),
    ("image_recscale", some 4)]

/-- The 24-bit RGB pixel format. -/
def rgb24 : PixelFormat :=
  { BitsPerPixel := 24, BytesPerPixel := 3,
    Rmask := 255, Gmask := 65280, Bmask := 16711680, Amask := 0 }

/-- A 2×2 RGB surface. -/
def surface2x2 : Surface :=
  { Format := rgb24, W := 2, H := 2, Pitch := 6,
    Pixels := [1, 2, 3, 4, 5, 6, 7, 8, 9, 10, 11, 12] }

/-- A 10×2 RGB surface. -/
def surface10x2 : Surface :=
  { Format := rgb24, W := 10, H := 2, Pitch := 30, Pixels := List.replicate 60 0 }

/-! ## Command sequences and further concrete inputs -/

/-- The bindings of the extra arguments, from index `i` on: argument number
`j` of the list goes to position `j + 2`. -/
def extraArgCmds (k : Nat) (i : Nat) (va : List Arg) : List Cmd :=
  (va.enumFrom i).map fun iv => Cmd.SetArg k (iv.1 + 2) iv.2

/-- The command sequence of one invocation, as the dispatcher contract lists
it: bind source, bind destination, bind the extra arguments in order, enqueue
once over `(w, h)`, read back once. -/
def callSeq (cq k src dst w h : Nat) (va : List Arg) : List Cmd :=
  [Cmd.SetArg k 0 (.image src), Cmd.SetArg k 1 (.image dst)] ++ extraArgCmds k 0 va ++
    [Cmd.EnqueueKernel cq k [] [w, h] [], Cmd.EnqueueReadImage cq dst [0, 0, 0] [w, h, 1] 0 0]

/-- The creation of the source image of `s`. -/
def srcImageCmd (c : Nat) (s : Surface) : Cmd :=
  Cmd.NewImage2D c [.MEM_READ_ONLY, .MEM_COPY_HOST_PTR] (uint32 s.W) (uint32 s.H) s.Pitch
    (some s.Pixels)

/-- The creation of the `w × h` destination image. -/
def dstImageCmd (c w h : Nat) : Cmd :=
  Cmd.NewImage2D c [.MEM_WRITE_ONLY] w h 0 none

/-- The creation of the result surface from the bytes `px`. -/
def surfaceCmd (px : List Nat) (w h : Nat) (f : PixelFormat) : Cmd :=
  Cmd.CreateRGBSurfaceFrom px w h f.BitsPerPixel (((f.BytesPerPixel * w) % 2 ^ 32 : Nat) : Int)
    f.Rmask f.Gmask f.Bmask f.Amask

/-- The command sequence of one complete transform: source image, destination
image, the invocation, the result surface. -/
def callWrapSeq (c cq k srcI dstI : Nat) (px : List Nat) (dstW dstH : Nat) (s : Surface)
    (va : List Arg) : List Cmd :=
  srcImageCmd c s :: dstImageCmd c dstW dstH ::
    (callSeq cq k srcI dstI dstW dstH va ++ [surfaceCmd px dstW dstH s.Format])

/-- A run `r` on the runtime `rt`, started from `log`, is a transform of `s` by
the kernel `name` over the grid `w × h` with the extra arguments `va`:
* whatever happens, every binding it makes is on the kernel registered under
  `name`, at position 0 or 1 or one of the bindings of `va`; every kernel it
  enqueues is that kernel, over the global size `(w, h)` with no offset and no
  local size; every write-only image it creates is `w × h`;
* when it returns a nil error, the calls it has made are exactly
  `callWrapSeq`;
* when the surface has 3 bytes per pixel, the environment has a context, a
  queue and a kernel registered under `name`, and `rt` answers every call of
  `callWrapSeq` with a success (the read with at least one byte), the run does
  return a nil error, with the surface built on the bytes read, after exactly
  `callWrapSeq`. -/
def Dispatches (rt : Runtime) (e : Env) (s : Surface) (name : String) (w h : Nat)
    (va : List Arg) (log : List Cmd) (r : Ret Surface × List Cmd) : Prop :=
  (∃ t, r.2 = log ++ t ∧
    (∀ k i v, Cmd.SetArg k i v ∈ t → e.kernels.lookup name = some (some k) ∧
      (i < 2 ∨ Cmd.SetArg k i v ∈ extraArgCmds k 0 va)) ∧
    (∀ cq k off g l, Cmd.EnqueueKernel cq k off g l ∈ t →
      e.kernels.lookup name = some (some k) ∧ off = [] ∧ g = [w, h] ∧ l = []) ∧
    (∀ c w1 h1 pitch host, Cmd.NewImage2D c [.MEM_WRITE_ONLY] w1 h1 pitch host ∈ t →
      w1 = w ∧ h1 = h)) ∧
  (∀ news, r.1 = .ret news none → ∃ c cq k srcI dstI px,
    e.kernels.lookup name = some (some k) ∧
    r.2 = log ++ callWrapSeq c cq k srcI dstI px w h s va) ∧
  (∀ (c cq k srcI dstI b : Nat) (px : List Nat) (surf : Surface),
    s.Format.BytesPerPixel = 3 → e.c = some c → e.cq = some cq →
    e.kernels.lookup name = some (some k) →
    rt.NewImage2D (log ++ [srcImageCmd c s]) = .ok srcI →
    rt.NewImage2D (log ++ [srcImageCmd c s] ++ [dstImageCmd c w h]) = .ok dstI →
    (∀ l, rt.SetArg l = none) → (∀ l, rt.EnqueueKernel l = none) →
    rt.EnqueueReadImage (log ++ [srcImageCmd c s] ++ [dstImageCmd c w h] ++
      callSeq cq k srcI dstI w h va) = .ok (b :: px) →
    rt.CreateRGBSurfaceFrom (log ++ callWrapSeq c cq k srcI dstI (b :: px) w h s va) =
      some surf →
    r = (.ret (some { surf with Pixels := b :: px }) none,
      log ++ callWrapSeq c cq k srcI dstI (b :: px) w h s va))

/-- A 2×2 surface of 4 bytes per pixel (RGBA). -/
def rgbaSurface2x2 : Surface :=
  { Format := { BitsPerPixel := 32, BytesPerPixel := 4,
                Rmask := 255, Gmask := 65280, Bmask := 16711680, Amask := 4278190080 },
    W := 2, H := 2, Pitch := 8,
    Pixels := [1, 2, 3, 255, 4, 5, 6, 255, 7, 8, 9, 255, 10, 11, 12, 255] }

/-- Round to nearest, as the dimension law words it (ties upward). -/
def roundNearest (q : ℚ) : Int := ⌊q + 1 / 2⌋

/-- The 2×2 image with rows `A B` and `C D`. -/
def imageABCD : image2d_t Char :=
  imageOfRows 'Z' 2 2 [['A', 'B'], ['C', 'D']]

/-- A runtime on which the first image creation succeeds and every later one
fails with `CL_MEM_OBJECT_ALLOCATION_FAILURE`. -/
def dstFailsRuntime : Runtime :=
  { okRuntime with
    NewImage2D := fun log => if log.length = 1 then .ok 1 else .error { code := -4 } }

/-- A runtime on which context creation fails with `CL_OUT_OF_HOST_MEMORY`. -/
def contextFailsRuntime : Runtime :=
  { okRuntime with NewContextOfDevices := fun _ => .error { code := -6 } }

/-- A runtime on which the second kernel name does not resolve
(`CL_INVALID_KERNEL_NAME`). -/
def kernelFailsRuntime : Runtime :=
  { okRuntime with
    NewKernelNamed := fun log => if log.length = 5 then .error { code := -46 } else .ok log.length }

/-! ## A complete construction -/

/-- On `okRuntime`, `NewEnv` returns `okEnv` and a nil error. -/
theorem NewEnv_okRuntime : NewEnv okRuntime [] = (.ret (some okEnv) none,
    [.NewContextOfDevices [{ id := 0, imageSupport := true }],
     .NewCommandQueue 1 { id := 0, imageSupport := true }
       [.QUEUE_PROFILING_ENABLE, .QUEUE_OUT_OF_ORDER_EXEC_MODE_ENABLE],
     .NewProgramFromSource 1,
     .NewKernelNamed 3 "image_recscale", .NewKernelNamed 3 "image_rotate",
     .NewKernelNamed 3 "image_flip_h", .NewKernelNamed 3 "image_flip_v",
     .NewKernelNamed 3 "image_flip_hv", .NewKernelNamed 3 "image_affine",
     .NewKernelNamed 3 "image_affine2"]) := by
  decide

/-! ## The command sequence of `call` -/

theorem setExtraArgs_ok (rt : Runtime) (k : Nat) (va : List Arg) :
    ∀ (i : Nat) (log log3 : List Cmd), setExtraArgs rt k i va log = (none, log3) →
      log3 = log ++ extraArgCmds k i va := by
  induction va with
  | nil => intro i log log3 h; simp [setExtraArgs, extraArgCmds] at h ⊢; exact h.symm
  | cons v va ih =>
    intro i log log3 h
    simp only [setExtraArgs] at h
    split at h
    · simp at h
    · have := ih _ _ _ h
      simp [this, extraArgCmds, List.enumFrom]

theorem setExtraArgs_neverFails (rt : Runtime) (k : Nat) (hset : ∀ l, rt.SetArg l = none)
    (va : List Arg) :
    ∀ (i : Nat) (log : List Cmd),
      setExtraArgs rt k i va log = (none, log ++ extraArgCmds k i va) := by
  induction va with
  | nil => intro i log; simp [setExtraArgs, extraArgCmds]
  | cons v va ih =>
    intro i log
    simp only [setExtraArgs, hset, ih]
    simp [extraArgCmds, List.enumFrom]

/-- Whatever happens, the loop appends an initial segment of the bindings. -/
theorem setExtraArgs_log (rt : Runtime) (k : Nat) (va : List Arg) :
    ∀ (i : Nat) (log : List Cmd),
      ∃ t rest, (setExtraArgs rt k i va log).2 = log ++ t ∧ t ++ rest = extraArgCmds k i va := by
  induction va with
  | nil => intro i log; exact ⟨[], [], by simp [setExtraArgs], by simp [extraArgCmds]⟩
  | cons v va ih =>
    intro i log
    simp only [setExtraArgs]
    split
    · exact ⟨[Cmd.SetArg k (i + 2) v], extraArgCmds k (i + 1) va, by simp,
        by simp [extraArgCmds, List.enumFrom]⟩
    · obtain ⟨t, rest, ht, hr⟩ := ih (i + 1) (log ++ [Cmd.SetArg k (i + 2) v])
      exact ⟨Cmd.SetArg k (i + 2) v :: t, rest, by simp [ht],
        by simp [hr, extraArgCmds, List.enumFrom]⟩

/-- A run of `call` that returns a nil error has issued exactly `callSeq`, and
returns the bytes of the read. -/
theorem call_ok (rt : Runtime) (e : Env) (dstW dstH : Nat) (kernelName : String)
    (src dst : Nat) (va : List Arg) (log log5 : List Cmd) (r : Option (List Nat))
    (h : e.call rt dstW dstH kernelName src dst va log = (.ret r none, log5)) :
    ∃ cq k px, e.cq = some cq ∧ e.kernels.lookup kernelName = some (some k) ∧
      log5 = log ++ callSeq cq k src dst dstW dstH va ∧
      rt.EnqueueReadImage log5 = .ok px ∧ r = some px := by
  unfold Env.call at h
  split at h
  · simp at h
  · simp at h
  · rename_i k hk
    simp only at h
    split at h
    · simp at h
    split at h
    · simp at h
    split at h
    · simp at h
    rename_i log3 hargs
    have hlog3 := setExtraArgs_ok _ _ _ _ _ _ hargs
    split at h
    · simp at h
    rename_i cq hcq
    split at h
    · simp at h
    split at h
    · simp at h
    rename_i px hpx
    simp only [Prod.mk.injEq, Ret.ret.injEq, and_true] at h
    obtain ⟨hr, hl⟩ := h
    refine ⟨cq, k, px, hcq, hk, ?_, ?_, hr.symm⟩
    · rw [← hl, hlog3]; simp [callSeq]
    · rw [← hl]; exact hpx

/-- Whatever happens, `call` appends an initial segment of `callSeq`, and
nothing at all for an unregistered name. -/
theorem call_log (rt : Runtime) (e : Env) (dstW dstH : Nat) (kernelName : String)
    (src dst : Nat) (va : List Arg) (log : List Cmd) :
    ∃ t rest, (e.call rt dstW dstH kernelName src dst va log).2 = log ++ t ∧
      t ++ rest = callSeq (e.cq.getD 0) (((e.kernels.lookup kernelName).getD none).getD 0)
        src dst dstW dstH va ∧
      (t = [] ∨ ∃ k, e.kernels.lookup kernelName = some (some k)) := by
  unfold Env.call
  split
  · exact ⟨[], _, by simp, List.nil_append _, Or.inl rfl⟩
  · exact ⟨[], _, by simp, List.nil_append _, Or.inl rfl⟩
  · rename_i k hk
    have hreg : ∃ k1 : Nat, (some (some k) : Option (Option Nat)) = some (some k1) := ⟨k, rfl⟩
    simp only [hk, Option.getD_some]
    generalize hcq0 : e.cq.getD 0 = cq0
    have hseq : callSeq cq0 k src dst dstW dstH va =
        Cmd.SetArg k 0 (.image src) :: Cmd.SetArg k 1 (.image dst) :: (extraArgCmds k 0 va ++
          [Cmd.EnqueueKernel cq0 k [] [dstW, dstH] [],
           Cmd.EnqueueReadImage cq0 dst [0, 0, 0] [dstW, dstH, 1] 0 0]) := by
      simp [callSeq]
    rw [hseq]
    split
    · exact ⟨[Cmd.SetArg k 0 (.image src)], Cmd.SetArg k 1 (.image dst) :: (extraArgCmds k 0 va ++
          [Cmd.EnqueueKernel cq0 k [] [dstW, dstH] [],
           Cmd.EnqueueReadImage cq0 dst [0, 0, 0] [dstW, dstH, 1] 0 0]), rfl, rfl, Or.inr hreg⟩
    split
    · exact ⟨[Cmd.SetArg k 0 (.image src), Cmd.SetArg k 1 (.image dst)], extraArgCmds k 0 va ++
          [Cmd.EnqueueKernel cq0 k [] [dstW, dstH] [],
           Cmd.EnqueueReadImage cq0 dst [0, 0, 0] [dstW, dstH, 1] 0 0], by simp, rfl,
        Or.inr hreg⟩
    obtain ⟨t, rest, ht, hr⟩ := setExtraArgs_log rt k va 0
      (log ++ [Cmd.SetArg k 0 (.image src)] ++ [Cmd.SetArg k 1 (.image dst)])
    split
    · rename_i err log3 hargs
      rw [hargs] at ht
      simp only at ht
      exact ⟨Cmd.SetArg k 0 (.image src) :: Cmd.SetArg k 1 (.image dst) :: t,
        rest ++ [Cmd.EnqueueKernel cq0 k [] [dstW, dstH] [],
           Cmd.EnqueueReadImage cq0 dst [0, 0, 0] [dstW, dstH, 1] 0 0],
        by simp [ht], by simp [← hr], Or.inr hreg⟩
    rename_i log3 hargs
    rw [hargs] at ht
    simp only at ht
    have hrest : rest = [] := by
      have h3 := setExtraArgs_ok _ _ _ _ _ _ hargs
      rw [ht] at h3
      have h4 := List.append_cancel_left h3
      rw [h4] at hr
      simpa using hr
    subst hrest
    simp only [List.append_nil] at hr
    subst hr
    split
    · exact ⟨Cmd.SetArg k 0 (.image src) :: Cmd.SetArg k 1 (.image dst) :: extraArgCmds k 0 va,
        [Cmd.EnqueueKernel cq0 k [] [dstW, dstH] [],
           Cmd.EnqueueReadImage cq0 dst [0, 0, 0] [dstW, dstH, 1] 0 0], by simp [ht], by simp,
        Or.inr hreg⟩
    rename_i cq hcq
    simp only [hcq, Option.getD_some] at hcq0
    subst hcq0
    split
    · exact ⟨Cmd.SetArg k 0 (.image src) :: Cmd.SetArg k 1 (.image dst) :: (extraArgCmds k 0 va ++
          [Cmd.EnqueueKernel cq k [] [dstW, dstH] []]),
        [Cmd.EnqueueReadImage cq dst [0, 0, 0] [dstW, dstH, 1] 0 0], by simp [ht], by simp,
        Or.inr hreg⟩
    have hfull : ∃ t rest,
        log3 ++ [Cmd.EnqueueKernel cq k [] [dstW, dstH] []] ++
          [Cmd.EnqueueReadImage cq dst [0, 0, 0] [dstW, dstH, 1] 0 0] = log ++ t ∧
        t ++ rest = Cmd.SetArg k 0 (.image src) :: Cmd.SetArg k 1 (.image dst) ::
          (extraArgCmds k 0 va ++ [Cmd.EnqueueKernel cq k [] [dstW, dstH] [],
           Cmd.EnqueueReadImage cq dst [0, 0, 0] [dstW, dstH, 1] 0 0]) ∧
        (t = [] ∨ ∃ k1 : Nat, (some (some k) : Option (Option Nat)) = some (some k1)) :=
      ⟨_, [], by simp [ht]; rfl, by simp, Or.inr hreg⟩
    split
    · exact hfull
    · exact hfull

/-! ## The command sequence of `callWrap` -/

theorem NewImage_cases (rt : Runtime) (e : Env) (s : Surface) (log : List Cmd) :
    (s.Format.BytesPerPixel ≠ 3 ∧
      e.NewImage rt s log = (.ret none (some (.new "Unsupported image format")), log)) ∨
    (s.Format.BytesPerPixel = 3 ∧ e.c = none ∧ e.NewImage rt s log = (.panicked, log)) ∨
    (∃ c err, s.Format.BytesPerPixel = 3 ∧ e.c = some c ∧
      rt.NewImage2D (log ++ [srcImageCmd c s]) = .error err ∧
      e.NewImage rt s log = (.ret none (some (.cl err)), log ++ [srcImageCmd c s])) ∨
    (∃ c img, s.Format.BytesPerPixel = 3 ∧ e.c = some c ∧
      rt.NewImage2D (log ++ [srcImageCmd c s]) = .ok img ∧
      e.NewImage rt s log =
        (.ret (some { clImage := img, s := some s, pixels := [], w := 0, h := 0 }) none,
          log ++ [srcImageCmd c s])) := by
  unfold Env.NewImage
  by_cases hb : s.Format.BytesPerPixel = 3
  · simp only [hb, ne_eq, not_true_eq_false, if_false]
    cases hc : e.c with
    | none => exact Or.inr (Or.inl ⟨trivial, rfl, rfl⟩)
    | some c =>
      simp only
      cases hr : rt.NewImage2D (log ++ [srcImageCmd c s]) with
      | error err =>
        refine Or.inr (Or.inr (Or.inl ⟨c, err, trivial, rfl, hr, ?_⟩))
        simp only [srcImageCmd] at hr
        simp [hr, srcImageCmd]
      | ok img =>
        refine Or.inr (Or.inr (Or.inr ⟨c, img, trivial, rfl, hr, ?_⟩))
        simp only [srcImageCmd] at hr
        simp [hr, srcImageCmd]
  · exact Or.inl ⟨hb, by simp [hb]⟩

theorem NewWImage_cases (rt : Runtime) (e : Env) (w h : Nat) (log : List Cmd) :
    (e.c = none ∧ e.NewWImage rt w h log = (.panicked, log)) ∨
    (∃ c err, e.c = some c ∧ rt.NewImage2D (log ++ [dstImageCmd c w h]) = .error err ∧
      e.NewWImage rt w h log = (.ret none (some (.cl err)), log ++ [dstImageCmd c w h])) ∨
    (∃ c img, e.c = some c ∧ rt.NewImage2D (log ++ [dstImageCmd c w h]) = .ok img ∧
      e.NewWImage rt w h log =
        (.ret (some { clImage := img, s := none, pixels := [], w := w, h := h }) none,
          log ++ [dstImageCmd c w h])) := by
  unfold Env.NewWImage
  cases hc : e.c with
  | none => exact Or.inl ⟨rfl, rfl⟩
  | some c =>
    simp only
    cases hr : rt.NewImage2D (log ++ [dstImageCmd c w h]) with
    | error err =>
      refine Or.inr (Or.inl ⟨c, err, rfl, hr, ?_⟩)
      simp only [dstImageCmd] at hr
      simp [hr, dstImageCmd]
    | ok img =>
      refine Or.inr (Or.inr ⟨c, img, rfl, hr, ?_⟩)
      simp only [dstImageCmd] at hr
      simp [hr, dstImageCmd]

theorem createSDLSurface_log (rt : Runtime) (img : Image) (f : PixelFormat) (log : List Cmd) :
    (img.createSDLSurface rt f log).2 = log ++ [surfaceCmd img.pixels img.w img.h f] := by
  unfold Image.createSDLSurface
  simp only [surfaceCmd]
  split
  · rfl
  · split <;> rfl

theorem createSDLSurface_ok (rt : Runtime) (img : Image) (f : PixelFormat) (log log1 : List Cmd)
    (news : Option Surface)
    (h : img.createSDLSurface rt f log = (.ret news none, log1)) :
    ∃ surf : Surface, rt.CreateRGBSurfaceFrom log1 = some surf ∧ img.pixels ≠ [] ∧
      news = some { surf with Pixels := img.pixels } := by
  have hl := createSDLSurface_log rt img f log
  rw [h] at hl
  simp only at hl
  unfold Image.createSDLSurface at h
  simp only at h
  split at h
  · simp at h
  · rename_i surf hs
    split at h
    · simp at h
    · rename_i b bs hpx
      simp only [Prod.mk.injEq, Ret.ret.injEq, and_true] at h
      refine ⟨surf, ?_, by simp [hpx], h.1.symm⟩
      rw [hl]; exact hs

theorem createSDLSurface_run (rt : Runtime) (img : Image) (f : PixelFormat) (log : List Cmd)
    (b : Nat) (px : List Nat) (surf : Surface) (hpx : img.pixels = b :: px)
    (hsurf : rt.CreateRGBSurfaceFrom (log ++ [surfaceCmd img.pixels img.w img.h f]) = some surf) :
    img.createSDLSurface rt f log =
      (.ret (some { surf with Pixels := img.pixels }) none,
        log ++ [surfaceCmd img.pixels img.w img.h f]) := by
  unfold Image.createSDLSurface
  simp only [surfaceCmd] at hsurf ⊢
  rw [hsurf]
  simp only
  rw [hpx]

/-- A run of `callWrap` that returns a nil error has issued exactly
`callWrapSeq`, on a 3-bytes-per-pixel surface, and returns the surface built
on the bytes read. -/
theorem callWrap_ok (rt : Runtime) (e : Env) (dstW dstH : Nat) (kernelName : String)
    (s : Surface) (va : List Arg) (log log4 : List Cmd) (news : Option Surface)
    (h : e.callWrap rt dstW dstH kernelName s va log = (.ret news none, log4)) :
    ∃ (c cq k srcI dstI : Nat) (px : List Nat) (surf : Surface),
      s.Format.BytesPerPixel = 3 ∧ e.c = some c ∧ e.cq = some cq ∧
      e.kernels.lookup kernelName = some (some k) ∧
      log4 = log ++ callWrapSeq c cq k srcI dstI px dstW dstH s va ∧
      px ≠ [] ∧ news = some { surf with Pixels := px } := by
  unfold Env.callWrap at h
  rcases NewImage_cases rt e s log with ⟨_, h1⟩ | ⟨_, _, h1⟩ | ⟨c, err, _, _, _, h1⟩ |
    ⟨c, srcI, hb, hc, _, h1⟩
  · rw [h1] at h; simp at h
  · rw [h1] at h; simp at h
  · rw [h1] at h; simp at h
  rw [h1] at h
  simp only at h
  rcases NewWImage_cases rt e dstW dstH (log ++ [srcImageCmd c s]) with ⟨_, h2⟩ |
    ⟨c2, err, _, _, h2⟩ | ⟨c2, dstI, hc2, _, h2⟩
  · rw [h2] at h; simp at h
  · rw [h2] at h; simp at h
  rw [h2] at h
  simp only at h
  have hcc : c2 = c := by rw [hc] at hc2; exact (Option.some.inj hc2).symm
  subst hcc
  split at h
  · simp at h
  · simp at h
  rename_i r log3 hcall
  obtain ⟨cq, k, px, hcq, hk, hlog3, _, hr⟩ := call_ok _ _ _ _ _ _ _ _ _ _ _ hcall
  split at h
  · simp at h
  · simp at h
  rename_i news1 log5 hsurf
  obtain ⟨surf, _, hpx, hnews⟩ := createSDLSurface_ok _ _ _ _ _ _ hsurf
  have hl := createSDLSurface_log rt ⟨dstI, none, r.getD [], dstW, dstH⟩ s.Format log3
  rw [hsurf] at hl
  simp only [Prod.mk.injEq, Ret.ret.injEq, and_true] at h
  subst hr
  simp only [Option.getD_some] at hl hpx hnews
  refine ⟨c2, cq, k, srcI, dstI, px, surf, hb, hc, hcq, hk, ?_, hpx, ?_⟩
  · rw [← h.2, hl, hlog3]; simp [callWrapSeq]
  · rw [← h.1, hnews]

/-- Whatever happens, `callWrap` appends an initial segment of `callWrapSeq`,
and beyond the two image creations only for a registered name. -/
theorem callWrap_log (rt : Runtime) (e : Env) (dstW dstH : Nat) (kernelName : String)
    (s : Surface) (va : List Arg) (log : List Cmd) :
    ∃ srcI dstI px t rest, (e.callWrap rt dstW dstH kernelName s va log).2 = log ++ t ∧
      t ++ rest = callWrapSeq (e.c.getD 0) (e.cq.getD 0)
        (((e.kernels.lookup kernelName).getD none).getD 0) srcI dstI px dstW dstH s va ∧
      (t.length ≤ 2 ∨ ∃ k, e.kernels.lookup kernelName = some (some k)) := by
  unfold Env.callWrap
  rcases NewImage_cases rt e s log with ⟨_, h1⟩ | ⟨_, _, h1⟩ | ⟨c, err, _, hc, _, h1⟩ |
    ⟨c, srcI, hb, hc, _, h1⟩
  · rw [h1]; exact ⟨0, 0, [], [], _, by simp, List.nil_append _, Or.inl (by simp)⟩
  · rw [h1]; exact ⟨0, 0, [], [], _, by simp, List.nil_append _, Or.inl (by simp)⟩
  · rw [h1, hc]; exact ⟨0, 0, [], [srcImageCmd c s], _, rfl, rfl, Or.inl (by simp)⟩
  rw [h1]
  simp only
  rcases NewWImage_cases rt e dstW dstH (log ++ [srcImageCmd c s]) with ⟨hn, h2⟩ |
    ⟨c2, err, hc2, _, h2⟩ | ⟨c2, dstI, hc2, _, h2⟩
  · rw [hn] at hc; simp at hc
  · rw [h2]
    have hcc : c2 = c := by rw [hc] at hc2; exact (Option.some.inj hc2).symm
    subst hcc
    rw [hc]
    exact ⟨0, 0, [], [srcImageCmd c2 s, dstImageCmd c2 dstW dstH], _, by simp, rfl,
      Or.inl (by simp)⟩
  rw [h2]
  simp only
  have hcc : c2 = c := by rw [hc] at hc2; exact (Option.some.inj hc2).symm
  subst hcc
  rw [hc]
  simp only [Option.getD_some]
  obtain ⟨t, rest, ht, hr, hreg⟩ := call_log rt e dstW dstH kernelName srcI dstI va
    (log ++ [srcImageCmd c2 s] ++ [dstImageCmd c2 dstW dstH])
  have hpart : ∀ px, ∃ t1 rest1,
      (e.call rt dstW dstH kernelName srcI dstI va
        (log ++ [srcImageCmd c2 s] ++ [dstImageCmd c2 dstW dstH])).2 = log ++ t1 ∧
      t1 ++ rest1 = callWrapSeq c2 (e.cq.getD 0)
        (((e.kernels.lookup kernelName).getD none).getD 0) srcI dstI px dstW dstH s va ∧
      (t1.length ≤ 2 ∨ ∃ k, e.kernels.lookup kernelName = some (some k)) :=
    fun px => ⟨srcImageCmd c2 s :: dstImageCmd c2 dstW dstH :: t,
      rest ++ [surfaceCmd px dstW dstH s.Format], by rw [ht]; simp,
      by simp [callWrapSeq, ← hr], hreg.imp (fun h0 => by simp [h0]) id⟩
  split
  · rename_i log3 hcall
    rw [hcall] at hpart
    exact ⟨srcI, dstI, [], hpart []⟩
  · rename_i v err log3 hcall
    rw [hcall] at hpart
    exact ⟨srcI, dstI, [], hpart []⟩
  rename_i r log3 hcall
  obtain ⟨cq, k, px, hcq, hk, hlog3, _, hr2⟩ := call_ok _ _ _ _ _ _ _ _ _ _ _ hcall
  subst hr2
  have hl := createSDLSurface_log rt ⟨dstI, none, px, dstW, dstH⟩ s.Format log3
  simp only [Option.getD_some]
  have hfull : ∃ t1 rest1, log3 ++ [surfaceCmd px dstW dstH s.Format] = log ++ t1 ∧
      t1 ++ rest1 = callWrapSeq c2 (e.cq.getD 0)
        (((e.kernels.lookup kernelName).getD none).getD 0) srcI dstI px dstW dstH s va ∧
      (t1.length ≤ 2 ∨ ∃ k, e.kernels.lookup kernelName = some (some k)) := by
    refine ⟨callWrapSeq c2 cq k srcI dstI px dstW dstH s va, [], ?_, ?_, Or.inr ⟨k, hk⟩⟩
    · rw [hlog3]; simp [callWrapSeq]
    · simp [hcq, hk]
  split
  · rename_i log5 hsurf
    rw [hsurf] at hl; simp only at hl; rw [hl]
    exact ⟨srcI, dstI, px, hfull⟩
  · rename_i v err log5 hsurf
    rw [hsurf] at hl; simp only at hl; rw [hl]
    exact ⟨srcI, dstI, px, hfull⟩
  · rename_i v log5 hsurf
    rw [hsurf] at hl; simp only at hl; rw [hl]
    exact ⟨srcI, dstI, px, hfull⟩

theorem mem_of_short_initial (t rest L : List Cmd) (a b cmd : Cmd)
    (h : t ++ rest = a :: b :: L) (hl : t.length ≤ 2) (hm : cmd ∈ t) : cmd = a ∨ cmd = b := by
  match t, hl, h, hm with
  | [], _, _, hm => simp at hm
  | [x], _, h, hm =>
    simp at h hm
    exact Or.inl (hm.trans h.1)
  | [x, y], _, h, hm =>
    simp at h hm
    rcases hm with hm | hm
    · exact Or.inl (hm.trans h.1)
    · exact Or.inr (hm.trans h.2.1)
  | _ :: _ :: _ :: _, hl, _, _ => simp at hl

theorem extraArgCmds_kernel (k0 k i j : Nat) (v : Arg) (va : List Arg)
    (h : Cmd.SetArg k i v ∈ extraArgCmds k0 j va) : k = k0 := by
  simp only [extraArgCmds, List.mem_map] at h
  obtain ⟨_, _, h⟩ := h
  simp only [Cmd.SetArg.injEq] at h
  exact h.1.symm

/-- A run of `callWrap` on which no library call fails. -/
theorem callWrap_run (rt : Runtime) (e : Env) (dstW dstH : Nat) (kernelName : String)
    (s : Surface) (va : List Arg) (log : List Cmd) (c cq k srcI dstI b : Nat) (px : List Nat)
    (surf : Surface)
    (hb : s.Format.BytesPerPixel = 3) (hc : e.c = some c) (hcq : e.cq = some cq)
    (hk : e.kernels.lookup kernelName = some (some k))
    (hsrc : rt.NewImage2D (log ++ [srcImageCmd c s]) = .ok srcI)
    (hdst : rt.NewImage2D (log ++ [srcImageCmd c s] ++ [dstImageCmd c dstW dstH]) = .ok dstI)
    (hset : ∀ l, rt.SetArg l = none) (henq : ∀ l, rt.EnqueueKernel l = none)
    (hread : rt.EnqueueReadImage (log ++ [srcImageCmd c s] ++ [dstImageCmd c dstW dstH] ++
      callSeq cq k srcI dstI dstW dstH va) = .ok (b :: px))
    (hsurf : rt.CreateRGBSurfaceFrom
      (log ++ callWrapSeq c cq k srcI dstI (b :: px) dstW dstH s va) = some surf) :
    e.callWrap rt dstW dstH kernelName s va log =
      (.ret (some { surf with Pixels := b :: px }) none,
        log ++ callWrapSeq c cq k srcI dstI (b :: px) dstW dstH s va) := by
  have h1 : e.NewImage rt s log =
      (.ret (some { clImage := srcI, s := some s, pixels := [], w := 0, h := 0 }) none,
        log ++ [srcImageCmd c s]) := by
    unfold Env.NewImage
    simp only [srcImageCmd] at hsrc
    simp [hb, hc, hsrc, srcImageCmd]
  have h2 : e.NewWImage rt dstW dstH (log ++ [srcImageCmd c s]) =
      (.ret (some { clImage := dstI, s := none, pixels := [], w := dstW, h := dstH }) none,
        log ++ [srcImageCmd c s] ++ [dstImageCmd c dstW dstH]) := by
    unfold Env.NewWImage
    simp only [hc, dstImageCmd]
    simp only [dstImageCmd] at hdst
    rw [hdst]
  have h3 : e.call rt dstW dstH kernelName srcI dstI va
      (log ++ [srcImageCmd c s] ++ [dstImageCmd c dstW dstH]) =
      (.ret (some (b :: px)) none,
        log ++ [srcImageCmd c s] ++ [dstImageCmd c dstW dstH] ++
          callSeq cq k srcI dstI dstW dstH va) := by
    unfold Env.call
    simp only [callSeq, List.append_assoc, List.cons_append, List.nil_append] at hread
    simp [hk, hset, henq, hcq, hread, setExtraArgs_neverFails, callSeq]
  unfold Env.callWrap
  rw [h1]
  simp only
  rw [h2]
  simp only
  rw [h3]
  simp only [Option.getD_some]
  have hlog : log ++ callWrapSeq c cq k srcI dstI (b :: px) dstW dstH s va =
      log ++ [srcImageCmd c s] ++ [dstImageCmd c dstW dstH] ++
        callSeq cq k srcI dstI dstW dstH va ++ [surfaceCmd (b :: px) dstW dstH s.Format] := by
    simp [callWrapSeq]
  rw [hlog] at hsurf ⊢
  rw [createSDLSurface_run rt ⟨dstI, none, b :: px, dstW, dstH⟩ s.Format _ b px surf rfl hsurf]

theorem callWrap_dispatches (rt : Runtime) (e : Env) (dstW dstH : Nat) (kernelName : String)
    (s : Surface) (va : List Arg) (log : List Cmd) :
    Dispatches rt e s kernelName dstW dstH va log
      (e.callWrap rt dstW dstH kernelName s va log) := by
  refine ⟨?_, ?_, ?_⟩
  · obtain ⟨srcI, dstI, px, t, rest, ht, hr, hreg⟩ :=
      callWrap_log rt e dstW dstH kernelName s va log
    have hmem : ∀ cmd ∈ t, cmd ∈ callWrapSeq (e.c.getD 0) (e.cq.getD 0)
        (((e.kernels.lookup kernelName).getD none).getD 0) srcI dstI px dstW dstH s va := by
      intro cmd hc
      rw [← hr]
      exact List.mem_append_left _ hc
    have hk : ∀ cmd ∈ t, cmd = srcImageCmd (e.c.getD 0) s ∨
        cmd = dstImageCmd (e.c.getD 0) dstW dstH ∨
        ∃ k, e.kernels.lookup kernelName = some (some k) := by
      intro cmd hc
      rcases hreg with hl | hk
      · rcases mem_of_short_initial t rest _ _ _ cmd hr hl hc with h | h
        · exact Or.inl h
        · exact Or.inr (Or.inl h)
      · exact Or.inr (Or.inr hk)
    refine ⟨t, ht, ?_, ?_, ?_⟩
    · intro k i v hc
      have h1 := hmem _ hc
      rcases hk _ hc with h | h | ⟨k1, hk1⟩
      · simp [srcImageCmd] at h
      · simp [dstImageCmd] at h
      rw [hk1] at h1
      simp only [Option.getD_some] at h1
      simp only [callWrapSeq, callSeq, srcImageCmd, dstImageCmd, surfaceCmd, List.mem_cons,
        List.mem_append, List.cons_append, List.nil_append, List.mem_singleton,
        List.not_mem_nil, or_false, false_or, Cmd.SetArg.injEq, reduceCtorEq] at h1
      rcases h1 with ⟨hkk, hi, _⟩ | ⟨hkk, hi, _⟩ | h1
      · exact ⟨by rw [hk1, hkk], Or.inl (by omega)⟩
      · exact ⟨by rw [hk1, hkk], Or.inl (by omega)⟩
      · have hkk := extraArgCmds_kernel _ _ _ _ _ _ h1
        subst hkk
        exact ⟨hk1, Or.inr h1⟩
    · intro cq k off g l hc
      have h1 := hmem _ hc
      rcases hk _ hc with h | h | ⟨k1, hk1⟩
      · simp [srcImageCmd] at h
      · simp [dstImageCmd] at h
      rw [hk1] at h1
      simp only [Option.getD_some] at h1
      simp only [callWrapSeq, callSeq, srcImageCmd, dstImageCmd, surfaceCmd, List.mem_cons,
        List.mem_append, List.cons_append, List.nil_append, List.mem_singleton,
        List.not_mem_nil, or_false, false_or, Cmd.EnqueueKernel.injEq, reduceCtorEq,
        extraArgCmds, List.mem_map, and_false, exists_false, exists_const] at h1
      obtain ⟨_, hkk, ho, hg, hl⟩ := h1
      exact ⟨by rw [hk1, hkk], ho, hg, hl⟩
    · intro c w1 h1 pitch host hc
      have h2 := hmem _ hc
      simp only [callWrapSeq, callSeq, srcImageCmd, dstImageCmd, surfaceCmd, List.mem_cons,
        List.mem_append, List.cons_append, List.nil_append, List.mem_singleton,
        List.not_mem_nil, or_false, false_or, Cmd.NewImage2D.injEq, reduceCtorEq,
        extraArgCmds, List.mem_map, and_false, exists_false, exists_const] at h2
      rcases h2 with h2 | h2
      · simp at h2
      · exact ⟨h2.2.2.1, h2.2.2.2.1⟩
  · intro news h
    have hpair : e.callWrap rt dstW dstH kernelName s va log =
        (.ret news none, (e.callWrap rt dstW dstH kernelName s va log).2) := by
      rw [← h]
    obtain ⟨c, cq, k, srcI, dstI, px, _, _, _, _, hk, hlog, _, _⟩ :=
      callWrap_ok _ _ _ _ _ _ _ _ _ _ hpair
    exact ⟨c, cq, k, srcI, dstI, px, hk, hlog⟩
  · intro c cq k srcI dstI b px surf hb hc hcq hk hsrc hdst hset henq hread hsurf
    exact callWrap_run rt e dstW dstH kernelName s va log c cq k srcI dstI b px surf hb hc hcq hk
      hsrc hdst hset henq hread hsurf

/-! ## Conversions and rounding -/

theorem truncate_of_nonneg (q : ℚ) (h : 0 ≤ q) : truncate q = ⌊q⌋ := by
  unfold truncate
  rw [Rat.floor_def, Int.tdiv_eq_ediv (Rat.num_nonneg.mpr h) (Int.natCast_nonneg _)]

theorem uint32OfFloat_finite (rt : Runtime) (q : ℚ) (h0 : 0 ≤ q) (h1 : q < 2 ^ 32) :
    rt.uint32OfFloat (.finite q) = ⌊q⌋.toNat := by
  unfold Runtime.uint32OfFloat
  simp only
  rw [truncate_of_nonneg q h0]
  have hf0 : 0 ≤ ⌊q⌋ := Int.floor_nonneg.mpr h0
  have hf1 : ⌊q⌋ < 2 ^ 32 := by
    rw [Int.floor_lt]
    exact_mod_cast h1
  rw [if_pos ⟨hf0, hf1⟩]

theorem uint32_of_nonneg (i : Int) (h0 : 0 ≤ i) (h1 : i < 2 ^ 32) : uint32 i = i.toNat := by
  unfold uint32
  rw [Int.emod_eq_of_lt h0 h1]

theorem roundHalfEven_intCast (n : Int) : roundHalfEven (n : ℚ) = n := by
  unfold roundHalfEven
  simp

theorem floor_le_roundHalfEven (q : ℚ) : ⌊q⌋ ≤ roundHalfEven q := by
  unfold roundHalfEven
  split
  · exact le_refl _
  · split
    · omega
    · split <;> omega

/-- A value strictly within one half of the integer `n` rounds to `n`. -/
theorem roundHalfEven_of_near (q : ℚ) (n : Int) (h1 : (n : ℚ) - 1 / 2 < q)
    (h2 : q < (n : ℚ) + 1 / 2) : roundHalfEven q = n := by
  unfold roundHalfEven
  by_cases hq : (n : ℚ) ≤ q
  · have hf : ⌊q⌋ = n := by
      rw [Int.floor_eq_iff]
      constructor
      · exact hq
      · linarith
    rw [hf, if_pos (by linarith)]
  · have hq1 : q < n := lt_of_not_ge hq
    have hf : ⌊q⌋ = n - 1 := by
      rw [Int.floor_eq_iff]
      push_cast
      constructor <;> linarith
    rw [hf]
    push_cast
    rw [if_neg (by linarith), if_pos (by linarith)]
    ring

theorem binade_eq (q : ℚ) (e : Int) (h1 : (2 : ℚ) ^ e ≤ |q|) (h2 : |q| < 2 ^ (e + 1)) :
    Int.log 2 |q| = e := by
  have hpos : (0 : ℚ) < |q| := lt_of_lt_of_le (by positivity) h1
  have ha : e ≤ Int.log 2 |q| := by
    rw [← Int.zpow_le_iff_le_log (by norm_num) hpos]
    simpa using h1
  have hb : Int.log 2 |q| < e + 1 := by
    rw [← Int.lt_zpow_iff_log_lt (by norm_num) hpos]
    simpa using h2
  omega

/-- The binary32 rounding of `q` in the binade `[2^e, 2^(e+1))`, `-126 ≤ e`,
is `m · 2^(e-23)` for the integer `m` nearest to `q / 2^(e-23)`. -/
theorem roundBinary32_eq (neg : Bool) (q : ℚ) (e m : Int) (h1 : (2 : ℚ) ^ e ≤ |q|)
    (h2 : |q| < 2 ^ (e + 1)) (he : -126 ≤ e)
    (hm : roundHalfEven (q / 2 ^ (e - 23)) = m) (hm0 : m ≠ 0)
    (hlt : |(m : ℚ) * 2 ^ (e - 23)| < 2 ^ 128) :
    roundBinary32 neg q = .finite ((m : ℚ) * 2 ^ (e - 23)) := by
  have hpos : (0 : ℚ) < |q| := lt_of_lt_of_le (by positivity) h1
  have hq : q ≠ 0 := abs_pos.mp hpos
  unfold roundBinary32
  rw [if_neg hq]
  simp only [binade_eq q e h1 h2, max_eq_left he, hm]
  rw [if_neg (not_le.mpr hlt)]
  have hne : (m : ℚ) * 2 ^ (e - 23) ≠ 0 := by
    apply mul_ne_zero
    · exact_mod_cast hm0
    · positivity
  rw [if_neg hne]

/-- A value `n · 2^(e-23)` of the binade `[2^e, 2^(e+1))`, `-126 ≤ e ≤ 127`,
is a binary32 value: rounding leaves it as it is. -/
theorem roundBinary32_exact (neg : Bool) (q : ℚ) (e n : Int) (h1 : (2 : ℚ) ^ e ≤ |q|)
    (h2 : |q| < 2 ^ (e + 1)) (he : -126 ≤ e) (he1 : e ≤ 127)
    (hn : q = (n : ℚ) * 2 ^ (e - 23)) : roundBinary32 neg q = .finite q := by
  have hpos : (0 : ℚ) < |q| := lt_of_lt_of_le (by positivity) h1
  have hq : q ≠ 0 := abs_pos.mp hpos
  have hu : (0 : ℚ) < 2 ^ (e - 23) := by positivity
  have hdiv : q / 2 ^ (e - 23) = (n : ℚ) := by
    rw [hn]
    field_simp
  have hn0 : n ≠ 0 := by
    intro h0
    rw [h0] at hn
    simp at hn
    exact hq hn
  have hle : (2 : ℚ) ^ (e + 1) ≤ 2 ^ 128 := by
    have h128 : (2 : ℚ) ^ (e + 1) ≤ 2 ^ ((128 : ℕ) : Int) :=
      zpow_le_zpow_right₀ (by norm_num) (by push_cast; omega)
    rw [zpow_natCast] at h128
    exact h128
  have h := roundBinary32_eq neg q e n h1 h2 he (by rw [hdiv, roundHalfEven_intCast]) hn0
    (by rw [← hn]; exact lt_of_lt_of_le h2 hle)
  rw [h, ← hn]

/-- Rounding a non-negative value to binary32 gives no negative value. -/
theorem roundBinary32_nonneg (neg : Bool) (q r : ℚ) (h0 : 0 ≤ q)
    (h : roundBinary32 neg q = .finite r) : 0 ≤ r := by
  unfold roundBinary32 at h
  split at h
  · unfold Float32.zero at h
    split at h
    · simp at h
    · simp only [Float32.finite.injEq] at h
      rw [← h]
  · simp only at h
    split at h
    · simp at h
    · split at h
      · unfold Float32.zero at h
        split at h
        · simp at h
        · simp only [Float32.finite.injEq] at h
          rw [← h]
      · simp only [Float32.finite.injEq] at h
        rw [← h]
        apply mul_nonneg
        · have hf : 0 ≤ ⌊q / 2 ^ (max (Int.log 2 |q|) (-126) - 23)⌋ :=
            Int.floor_nonneg.mpr (div_nonneg h0 (by positivity))
          exact_mod_cast le_trans hf (floor_le_roundHalfEven _)
        · positivity

theorem Float32.mul_finite (mode : FloatMode) (a b : ℚ) :
    Float32.mul mode (.finite a) (.finite b) =
      Float32.round mode (xor (decide (a < 0)) (decide (b < 0))) (a * b) := rfl

theorem Float32.div_finite (mode : FloatMode) (a b : ℚ) (hb : b ≠ 0) :
    Float32.div mode (.finite a) (.finite b) =
      Float32.round mode (xor (decide (a < 0)) (decide (b < 0))) (a / b) := by
  simp [Float32.div, Float32.isZero, Float32.isNeg, Float32.value, hb]

/-- The width `Scale` asks for under binary32, from the two roundings. -/
theorem scaleDim_binary32 (rt : Runtime) (W : Int) (f w p : ℚ)
    (hw : roundBinary32 false (W : ℚ) = .finite w)
    (hp : roundBinary32 (xor (decide (w < 0)) (decide (f < 0))) (w * f) = .finite p)
    (h0 : 0 ≤ p) (h1 : p < 2 ^ 32) :
    rt.uint32OfFloat (Float32.mul .binary32 (Float32.ofInt .binary32 W) (.finite f)) =
      ⌊p⌋.toNat := by
  simp only [Float32.ofInt, Float32.round, hw, Float32.mul_finite, hp]
  exact uint32OfFloat_finite rt p h0 h1

theorem round_two : roundBinary32 false ((2 : Int) : ℚ) = .finite 2 := by
  have h := roundBinary32_exact false ((2 : Int) : ℚ) 1 (2 ^ 23) (by norm_num) (by norm_num)
    (by norm_num) (by norm_num) (by norm_num)
  simpa using h

theorem round_ten : roundBinary32 false ((10 : Int) : ℚ) = .finite 10 := by
  have h := roundBinary32_exact false ((10 : Int) : ℚ) 3 (10 * 2 ^ 20) (by norm_num) (by norm_num)
    (by norm_num) (by norm_num) (by norm_num)
  simpa using h

theorem round_seven_quarters (neg : Bool) : roundBinary32 neg (2 * (7 / 8)) = .finite (7 / 4) := by
  have h := roundBinary32_exact neg (2 * (7 / 8)) 0 (7 * 2 ^ 21) (by norm_num [abs_of_pos])
    (by norm_num [abs_of_pos]) (by norm_num) (by norm_num) (by norm_num)
  rw [h]
  norm_num

/-- The product 10 · float32(0.7) is not a binary32 value: it rounds up to 7. -/
theorem round_ten_by_seven_tenths (neg : Bool) :
    roundBinary32 neg (10 * (11744051 / 16777216)) = .finite 7 := by
  have h := roundBinary32_eq neg (10 * (11744051 / 16777216)) 2 14680064
    (by norm_num [abs_of_pos]) (by norm_num [abs_of_pos]) (by norm_num)
    (roundHalfEven_of_near _ _ (by norm_num) (by norm_num)) (by norm_num)
    (by norm_num [abs_of_pos])
  rw [h]
  norm_num


/-! ## The dispatcher `call` -/

/-- C7: for a registered kernel name on an environment with a queue, (1) when
no device step fails, `call` returns the bytes of the read with a nil error
after issuing exactly `callSeq`: bind argument 0 to the source, argument 1 to
the destination, extra argument `i` at position `i + 2` in the given order,
one enqueue over the global size `(dstW, dstH)` with no offset and no local
size, one read of the region from `(0,0,0)` of extent `(dstW, dstH, 1)`; and
(2) every run of `call` that ends with a nil error has issued exactly that
sequence and returns the bytes of its read. -/
theorem call_command_sequence (rt : Runtime) (e : Env) (dstW dstH : Nat) (kernelName : String)
    (src dst : Nat) (va : List Arg) (log : List Cmd) (k cq : Nat)
    (hk : e.kernels.lookup kernelName = some (some k)) (hcq : e.cq = some cq) :
    ((∀ l, rt.SetArg l = none) → (∀ l, rt.EnqueueKernel l = none) →
      (∀ l, ∃ px, rt.EnqueueReadImage l = .ok px) →
      ∃ px, rt.EnqueueReadImage (log ++ callSeq cq k src dst dstW dstH va) = .ok px ∧
        e.call rt dstW dstH kernelName src dst va log =
          (.ret (some px) none, log ++ callSeq cq k src dst dstW dstH va)) ∧
    (∀ r log5, e.call rt dstW dstH kernelName src dst va log = (.ret r none, log5) →
      log5 = log ++ callSeq cq k src dst dstW dstH va ∧
      ∃ px, rt.EnqueueReadImage log5 = .ok px ∧ r = some px) := by
  constructor
  · intro hset henq hread
    obtain ⟨px, hpx⟩ := hread (log ++ callSeq cq k src dst dstW dstH va)
    refine ⟨px, hpx, ?_⟩
    unfold Env.call
    simp only [callSeq, List.append_assoc, List.cons_append, List.nil_append] at hpx
    simp [hk, hset, henq, hcq, setExtraArgs_neverFails, callSeq, hpx]
  · intro r log5 h
    obtain ⟨cq1, k1, px, hcq1, hk1, hlog, hpx, hr⟩ := call_ok _ _ _ _ _ _ _ _ _ _ _ h
    rw [hcq] at hcq1
    rw [hk] at hk1
    have e1 : cq = cq1 := Option.some.inj hcq1
    have e2 : k = k1 := Option.some.inj (Option.some.inj hk1)
    subst e1 e2
    exact ⟨hlog, px, hpx, hr⟩

/-- C7 at a concrete input: `image_recscale` with two extra arguments. -/
theorem call_command_sequence_witness :
    okEnv.kernels.lookup "image_recscale" = some (some 4) ∧ okEnv.cq = some 2 ∧
    ((∀ l, okRuntime.SetArg l = none) → (∀ l, okRuntime.EnqueueKernel l = none) →
      (∀ l, ∃ px, okRuntime.EnqueueReadImage l = .ok px) →
      ∃ px, okRuntime.EnqueueReadImage
          ([] ++ callSeq 2 4 11 12 8 6 [.float32 (.finite (1 / 2)), .float32 (.finite (1 / 4))]) = .ok px ∧
        okEnv.call okRuntime 8 6 "image_recscale" 11 12 [.float32 (.finite (1 / 2)), .float32 (.finite (1 / 4))] [] =
          (.ret (some px) none,
            [] ++ callSeq 2 4 11 12 8 6 [.float32 (.finite (1 / 2)), .float32 (.finite (1 / 4))])) :=
  ⟨by decide, rfl,
    (call_command_sequence okRuntime okEnv 8 6 "image_recscale" 11 12
      [.float32 (.finite (1 / 2)), .float32 (.finite (1 / 4))] [] 4 2 (by decide) rfl).1⟩

/-- C10: `call` takes no lock.  Whatever the runtime answers, the calls a run
of `call` adds to the log contain neither `Lock` nor `Unlock`: the argument
bindings and the enqueue are issued with `Env.lock` never acquired. -/
theorem call_takes_no_lock (rt : Runtime) (e : Env) (dstW dstH : Nat) (kernelName : String)
    (src dst : Nat) (va : List Arg) (log : List Cmd) :
    ∃ t, (e.call rt dstW dstH kernelName src dst va log).2 = log ++ t ∧
      Cmd.Lock ∉ t ∧ Cmd.Unlock ∉ t := by
  obtain ⟨t, rest, ht, hr, _⟩ := call_log rt e dstW dstH kernelName src dst va log
  refine ⟨t, ht, ?_, ?_⟩
  · intro hm
    have h1 : Cmd.Lock ∈ t ++ rest := List.mem_append_left _ hm
    rw [hr] at h1
    simp [callSeq, extraArgCmds] at h1
  · intro hm
    have h1 : Cmd.Unlock ∈ t ++ rest := List.mem_append_left _ hm
    rw [hr] at h1
    simp [callSeq, extraArgCmds] at h1

/-! ## Source-image creation -/

/-- C6: `NewImage` on a surface whose `BytesPerPixel` is not 3 returns a nil
image and the error "Unsupported image format" and makes no library call; on a
surface whose `BytesPerPixel` is 3 it returns no error made by `errors.New`,
and when it returns an error at all, the image is nil and the error is the one
the device allocation `NewImage2D` answered. -/
theorem NewImage_format_check (rt : Runtime) (e : Env) (s : Surface) (log : List Cmd) :
    (s.Format.BytesPerPixel ≠ 3 →
      e.NewImage rt s log = (.ret none (some (.new "Unsupported image format")), log)) ∧
    (s.Format.BytesPerPixel = 3 →
      (∀ v msg, (e.NewImage rt s log).1 ≠ .ret v (some (.new msg))) ∧
      (∀ v err, (e.NewImage rt s log).1 = .ret v (some err) →
        v = none ∧ ∃ c clerr, e.c = some c ∧ err = .cl clerr ∧
          rt.NewImage2D (log ++ [srcImageCmd c s]) = .error clerr)) := by
  rcases NewImage_cases rt e s log with ⟨hb, h1⟩ | ⟨hb, _, h1⟩ | ⟨c, err, hb, hc, hr, h1⟩ |
    ⟨c, img, hb, hc, hr, h1⟩
  · exact ⟨fun _ => h1, fun h3 => absurd h3 hb⟩
  · refine ⟨fun h3 => absurd hb h3, fun _ => ?_⟩
    rw [h1]
    simp
  · refine ⟨fun h3 => absurd hb h3, fun _ => ?_⟩
    rw [h1]
    refine ⟨by simp, ?_⟩
    intro v err1 h
    simp only [Ret.ret.injEq, Option.some.injEq] at h
    exact ⟨h.1.symm, c, err, hc, h.2.symm, hr⟩
  · refine ⟨fun h3 => absurd hb h3, fun _ => ?_⟩
    rw [h1]
    simp

/-- C6 at concrete inputs: an RGBA surface is rejected with no library call,
and an RGB surface gets no `errors.New` error. -/
theorem NewImage_format_check_witness :
    rgbaSurface2x2.Format.BytesPerPixel ≠ 3 ∧
    okEnv.NewImage okRuntime rgbaSurface2x2 [] =
      (.ret none (some (.new "Unsupported image format")), []) ∧
    surface2x2.Format.BytesPerPixel = 3 ∧
    (∀ v msg, (okEnv.NewImage okRuntime surface2x2 []).1 ≠ .ret v (some (.new msg))) :=
  ⟨by decide, (NewImage_format_check okRuntime okEnv rgbaSurface2x2 []).1 (by decide), rfl,
    ((NewImage_format_check okRuntime okEnv surface2x2 []).2 rfl).1⟩

/-! ## `Flip` -/

/-- C5: on a surface whose width and height are non-negative `int32` values,
`Flip` with both flags false returns the surface it was given with a nil error
and makes no library call; with `(true, false)` it is a transform by
`image_flip_h`, with `(false, true)` by `image_flip_v`, with `(true, true)` by
`image_flip_hv`, each with no extra argument and with the destination image
and the dispatch grid of the source's width and height (each run issues
exactly `callWrapSeq` whenever the runtime answers its calls with a success);
the three names are pairwise distinct. -/
theorem Flip_four_cases (rt : Runtime) (e : Env) (s : Surface) (log : List Cmd)
    (hW : 0 ≤ s.W) (hW1 : s.W < 2 ^ 31) (hH : 0 ≤ s.H) (hH1 : s.H < 2 ^ 31) :
    e.Flip rt s false false log = (.ret (some s) none, log) ∧
    Dispatches rt e s "image_flip_h" s.W.toNat s.H.toNat [] log (e.Flip rt s true false log) ∧
    Dispatches rt e s "image_flip_v" s.W.toNat s.H.toNat [] log (e.Flip rt s false true log) ∧
    Dispatches rt e s "image_flip_hv" s.W.toNat s.H.toNat [] log (e.Flip rt s true true log) ∧
    "image_flip_h" ≠ "image_flip_v" ∧ "image_flip_h" ≠ "image_flip_hv" ∧
    "image_flip_v" ≠ "image_flip_hv" := by
  have hw : uint32 s.W = s.W.toNat := uint32_of_nonneg _ hW (by omega)
  have hh : uint32 s.H = s.H.toNat := uint32_of_nonneg _ hH (by omega)
  refine ⟨rfl, ?_, ?_, ?_, by decide, by decide, by decide⟩
  · have h := callWrap_dispatches rt e (uint32 s.W) (uint32 s.H) "image_flip_h" s [] log
    rw [hw, hh] at h
    simpa [Env.Flip, hw, hh] using h
  · have h := callWrap_dispatches rt e (uint32 s.W) (uint32 s.H) "image_flip_v" s [] log
    rw [hw, hh] at h
    simpa [Env.Flip, hw, hh] using h
  · have h := callWrap_dispatches rt e (uint32 s.W) (uint32 s.H) "image_flip_hv" s [] log
    rw [hw, hh] at h
    simpa [Env.Flip, hw, hh] using h

/-- C5 at a concrete input: on the runtime where no call fails, the four cases
of `Flip` on the 2×2 RGB surface.  The three dispatching cases each create the
source image and a 2×2 destination image, bind arguments 0 and 1 of their own
kernel (handles 6, 7, 8) and nothing else, enqueue it over `(2, 2)`, read the
region `(2, 2, 1)` and build the surface. -/
theorem Flip_four_cases_witness :
    (0 ≤ surface2x2.W ∧ surface2x2.W < 2 ^ 31 ∧ 0 ≤ surface2x2.H ∧ surface2x2.H < 2 ^ 31) ∧
    okEnv.Flip okRuntime surface2x2 false false [] = (.ret (some surface2x2) none, []) ∧
    okEnv.Flip okRuntime surface2x2 true false [] =
      (.ret (some { Format := rgb24, W := 2, H := 2, Pitch := 6,
                    Pixels := List.replicate 12 0 }) none,
        [srcImageCmd 1 surface2x2, dstImageCmd 1 2 2, .SetArg 6 0 (.image 1),
         .SetArg 6 1 (.image 2), .EnqueueKernel 2 6 [] [2, 2] [],
         .EnqueueReadImage 2 2 [0, 0, 0] [2, 2, 1] 0 0,
         surfaceCmd (List.replicate 12 0) 2 2 rgb24]) ∧
    okEnv.Flip okRuntime surface2x2 false true [] =
      (.ret (some { Format := rgb24, W := 2, H := 2, Pitch := 6,
                    Pixels := List.replicate 12 0 }) none,
        [srcImageCmd 1 surface2x2, dstImageCmd 1 2 2, .SetArg 7 0 (.image 1),
         .SetArg 7 1 (.image 2), .EnqueueKernel 2 7 [] [2, 2] [],
         .EnqueueReadImage 2 2 [0, 0, 0] [2, 2, 1] 0 0,
         surfaceCmd (List.replicate 12 0) 2 2 rgb24]) ∧
    okEnv.Flip okRuntime surface2x2 true true [] =
      (.ret (some { Format := rgb24, W := 2, H := 2, Pitch := 6,
                    Pixels := List.replicate 12 0 }) none,
        [srcImageCmd 1 surface2x2, dstImageCmd 1 2 2, .SetArg 8 0 (.image 1),
         .SetArg 8 1 (.image 2), .EnqueueKernel 2 8 [] [2, 2] [],
         .EnqueueReadImage 2 2 [0, 0, 0] [2, 2, 1] 0 0,
         surfaceCmd (List.replicate 12 0) 2 2 rgb24]) :=
  ⟨by decide,
    (Flip_four_cases okRuntime okEnv surface2x2 [] (by decide) (by decide) (by decide)
      (by decide)).1,
    (Flip_four_cases okRuntime okEnv surface2x2 [] (by decide) (by decide) (by decide)
      (by decide)).2.1.2.2 1 2 6 1 2 0 (List.replicate 11 0)
      ⟨rgb24, 2, 2, 6, List.replicate 12 0⟩ rfl rfl rfl (by decide) rfl rfl
      (fun _ => rfl) (fun _ => rfl) rfl rfl,
    (Flip_four_cases okRuntime okEnv surface2x2 [] (by decide) (by decide) (by decide)
      (by decide)).2.2.1.2.2 1 2 7 1 2 0 (List.replicate 11 0)
      ⟨rgb24, 2, 2, 6, List.replicate 12 0⟩ rfl rfl rfl (by decide) rfl rfl
      (fun _ => rfl) (fun _ => rfl) rfl rfl,
    (Flip_four_cases okRuntime okEnv surface2x2 [] (by decide) (by decide) (by decide)
      (by decide)).2.2.2.1.2.2 1 2 8 1 2 0 (List.replicate 11 0)
      ⟨rgb24, 2, 2, 6, List.replicate 12 0⟩ rfl rfl rfl (by decide) rfl rfl
      (fun _ => rfl) (fun _ => rfl) rfl rfl⟩

/-! ## `Scale` -/

theorem round_two_zpow (neg : Bool) (k : Int) (h1 : -126 ≤ k) (h2 : k ≤ 127) :
    roundBinary32 neg ((2 : ℚ) ^ k) = .finite (2 ^ k) := by
  have hpos : (0 : ℚ) < 2 ^ k := by positivity
  apply roundBinary32_exact neg ((2 : ℚ) ^ k) k (2 ^ 23) _ _ h1 h2
  · rw [zpow_sub₀ (by norm_num : (2 : ℚ) ≠ 0)]
    push_cast
    field_simp
    ring
  · rw [abs_of_pos hpos]
  · rw [abs_of_pos hpos]
    exact zpow_lt_zpow_right₀ (by norm_num) (by omega)

theorem floor_seven_quarters : ⌊(7 / 4 : ℚ)⌋.toNat = 1 := by
  have h : ⌊(7 / 4 : ℚ)⌋ = 1 := by
    rw [Int.floor_eq_iff]
    norm_num
  rw [h]
  rfl

/-- Under binary32 a 2-pixel side scaled by 7/8 gives 1: 2 · 7/8 = 7/4 is a
binary32 value and is truncated. -/
theorem scaleDim_two_by_seven_eighths (rt : Runtime) :
    rt.uint32OfFloat (Float32.mul .binary32 (Float32.ofInt .binary32 2) (.finite (7 / 8))) = 1 := by
  rw [scaleDim_binary32 rt 2 (7 / 8) 2 (7 / 4) round_two (round_seven_quarters _) (by norm_num)
    (by norm_num)]
  exact floor_seven_quarters

/-- Under binary32 a 10-pixel side scaled by float32(0.7) = 11744051/2^24
gives 7: the exact product 6.99999988 rounds to the binary32 value 7 before it
is truncated. -/
theorem scaleDim_ten_by_seven_tenths (rt : Runtime) :
    rt.uint32OfFloat (Float32.mul .binary32 (Float32.ofInt .binary32 10)
      (.finite (11744051 / 16777216))) = 7 := by
  rw [scaleDim_binary32 rt 10 (11744051 / 16777216) 10 7 round_ten
    (round_ten_by_seven_tenths _) (by norm_num) (by norm_num)]
  simp

/-- Under binary32 a 2-pixel side scaled by 2^k, `0 ≤ k ≤ 30`, gives
2^(k+1). -/
theorem scaleDim_two_by_pow (rt : Runtime) (k : Nat) (hk : k ≤ 30) :
    rt.uint32OfFloat (Float32.mul .binary32 (Float32.ofInt .binary32 2) (.finite (2 ^ k))) =
      2 ^ (k + 1) := by
  have hp : roundBinary32 (xor (decide ((2 : ℚ) < 0)) (decide ((2 : ℚ) ^ k < 0))) (2 * 2 ^ k) =
      .finite (2 ^ (k + 1)) := by
    have h := round_two_zpow (xor (decide ((2 : ℚ) < 0)) (decide ((2 : ℚ) ^ k < 0)))
      ((k : Int) + 1) (by omega) (by omega)
    have he : (2 : ℚ) ^ ((k : Int) + 1) = 2 * 2 ^ k := by
      rw [zpow_add_one₀ (by norm_num : (2 : ℚ) ≠ 0), zpow_natCast]
      ring
    rw [he] at h
    rw [h, pow_succ]
    congr 1
    ring
  have hlt : (2 : ℚ) ^ (k + 1) < 2 ^ 32 := pow_lt_pow_right₀ (by norm_num) (by omega)
  rw [scaleDim_binary32 rt 2 (2 ^ k) 2 (2 ^ (k + 1)) round_two hp (by positivity) hlt]
  have hf : ⌊(2 : ℚ) ^ (k + 1)⌋ = ((2 ^ (k + 1) : ℕ) : Int) := by
    rw [Int.floor_eq_iff]
    push_cast
    constructor
    · exact le_refl _
    · linarith
  rw [hf, Int.toNat_natCast]

/-- The binary32 reciprocal of 2^k, `0 ≤ k ≤ 126`, is 1 / 2^k. -/
theorem reciprocal_pow (k : Nat) (hk : k ≤ 126) :
    Float32.div .binary32 (.finite 1) (.finite (2 ^ k)) = .finite (1 / 2 ^ k) := by
  rw [Float32.div_finite _ _ _ (by positivity)]
  have h := round_two_zpow (xor (decide ((1 : ℚ) < 0)) (decide ((2 : ℚ) ^ k < 0)))
    (-(k : Int)) (by omega) (by omega)
  have he : (2 : ℚ) ^ (-(k : Int)) = 1 / 2 ^ k := by
    rw [zpow_neg, zpow_natCast, one_div]
  rw [he] at h
  exact h

/-- The conversion `float32(16777217)` of 2^24 + 1, which is not a binary32
value, is the tie broken to the even neighbour 2^24. -/
theorem ofInt_above_two_pow_24 :
    Float32.ofInt .binary32 16777217 = .finite 16777216 := by
  have hf : ⌊(16777217 / 2 : ℚ)⌋ = 8388608 := by
    rw [Int.floor_eq_iff]
    norm_num
  have hm : roundHalfEven (((16777217 : Int) : ℚ) / 2 ^ ((24 : Int) - 23)) = 8388608 := by
    have he : ((16777217 : Int) : ℚ) / 2 ^ ((24 : Int) - 23) = 16777217 / 2 := by norm_num
    rw [he]
    unfold roundHalfEven
    rw [hf]
    norm_num
  have h := roundBinary32_eq false ((16777217 : Int) : ℚ) 24 8388608
    (by norm_num [abs_of_pos]) (by norm_num [abs_of_pos]) (by norm_num) hm (by norm_num)
    (by norm_num [abs_of_pos])
  simp only [Float32.ofInt, Float32.round]
  rw [h]
  norm_num

/-- The reciprocal `float32(1)/0` of a positive zero is `+Inf` under either
arithmetic. -/
theorem reciprocal_of_zero (mode : FloatMode) :
    Float32.div mode (.finite 1) (.finite 0) = .inf false := by
  simp [Float32.div, Float32.isZero, Float32.isNeg]

/-- The product of `float32(W)`, `0 ≤ W`, and a positive factor is not
negative. -/
theorem mul_ofInt_nonneg (W : Int) (f p : ℚ) (hW : 0 ≤ W) (hf : 0 < f)
    (h : Float32.mul .binary32 (Float32.ofInt .binary32 W) (.finite f) = .finite p) :
    0 ≤ p := by
  have hnf : ¬ f < 0 := not_lt.mpr (le_of_lt hf)
  simp only [Float32.ofInt, Float32.round] at h
  cases hw : roundBinary32 false (W : ℚ) with
  | finite w =>
    rw [hw, Float32.mul_finite] at h
    have h0 : 0 ≤ w := roundBinary32_nonneg false (W : ℚ) w (by exact_mod_cast hW) hw
    exact roundBinary32_nonneg _ _ _ (mul_nonneg h0 (le_of_lt hf)) h
  | negZero =>
    rw [hw] at h
    simp [Float32.mul, Float32.isNeg, Float32.value, Float32.round, roundBinary32,
      Float32.zero, hnf] at h
  | inf n =>
    rw [hw] at h
    simp only [Float32.mul] at h
    split at h <;> simp at h
  | nan =>
    rw [hw] at h
    simp [Float32.mul] at h

/-- The run of `Scale` by 7/8 in both axes on the 2×2 surface, under
binary32. -/
theorem Scale_run_2x2 :
    okEnv.Scale okRuntime .binary32 surface2x2 (.finite (7 / 8)) (.finite (7 / 8)) [] =
      (.ret (some { Format := rgb24, W := 1, H := 1, Pitch := 3, Pixels := [0, 0, 0] }) none,
        callWrapSeq 1 2 4 1 2 [0, 0, 0] 1 1 surface2x2
          [.float32 (Float32.div .binary32 (.finite 1) (.finite (7 / 8))),
           .float32 (Float32.div .binary32 (.finite 1) (.finite (7 / 8)))]) := by
  have h := callWrap_run okRuntime okEnv 1 1 "image_recscale" surface2x2
    [.float32 (Float32.div .binary32 (.finite 1) (.finite (7 / 8))),
     .float32 (Float32.div .binary32 (.finite 1) (.finite (7 / 8)))] [] 1 2 4 1 2 0 [0, 0]
    { Format := rgb24, W := 1, H := 1, Pitch := 3, Pixels := [0, 0, 0] }
    rfl rfl rfl (by decide) rfl rfl (fun _ => rfl) (fun _ => rfl) rfl rfl
  unfold Env.Scale
  simp only [show surface2x2.W = 2 from rfl, show surface2x2.H = 2 from rfl,
    scaleDim_two_by_seven_eighths]
  rw [h]
  simp

/-- C2, as stated, fails: scaling the 2×2 surface by 7/8 in both axes (2, 7/8
and 7/4 are binary32 values) creates a 1×1 destination image and enqueues over
the grid `(1, 1)`, while rounding 2·7/8 = 7/4 to nearest gives 2. -/
theorem Scale_size_not_rounded :
    Cmd.NewImage2D 1 [.MEM_WRITE_ONLY] 1 1 0 none ∈
      (okEnv.Scale okRuntime .binary32 surface2x2 (.finite (7 / 8)) (.finite (7 / 8)) []).2 ∧
    Cmd.EnqueueKernel 2 4 [] [1, 1] [] ∈
      (okEnv.Scale okRuntime .binary32 surface2x2 (.finite (7 / 8)) (.finite (7 / 8)) []).2 ∧
    roundBinary32 false (7 / 8) = .finite (7 / 8) ∧
    roundNearest ((surface2x2.W : ℚ) * (7 / 8)) = 2 ∧
    roundNearest ((surface2x2.H : ℚ) * (7 / 8)) = 2 := by
  have hr : roundNearest (((2 : Int) : ℚ) * (7 / 8)) = 2 := by
    unfold roundNearest
    rw [Int.floor_eq_iff]
    norm_num
  have h78 : roundBinary32 false (7 / 8) = .finite (7 / 8) :=
    roundBinary32_exact false (7 / 8) (-1) (7 * 2 ^ 21) (by norm_num [abs_of_pos])
      (by norm_num [abs_of_pos]) (by norm_num) (by norm_num) (by norm_num)
  rw [Scale_run_2x2]
  refine ⟨?_, ?_, h78, hr, hr⟩
  · simp [callWrapSeq, dstImageCmd]
  · simp [callWrapSeq, callSeq]

/-- C2, amended: on a surface of non-negative width and height, for positive
factors, when the float32 products `float32(W)*factorx` and
`float32(H)*factory` (each the exact product rounded to the nearest binary32
value) are the finite values `px`, `py` below 2^32, `Scale` is a transform
whose destination image and dispatch grid are `⌊px⌋ × ⌊py⌋`: the float32
products are truncated, not rounded to nearest. -/
theorem Scale_size_truncated (rt : Runtime) (e : Env) (s : Surface) (factorx factory : ℚ)
    (px py : ℚ) (log : List Cmd) (hW : 0 ≤ s.W) (hH : 0 ≤ s.H) (hx : 0 < factorx)
    (hy : 0 < factory)
    (hpx : Float32.mul .binary32 (Float32.ofInt .binary32 s.W) (.finite factorx) = .finite px)
    (hpy : Float32.mul .binary32 (Float32.ofInt .binary32 s.H) (.finite factory) = .finite py)
    (hlx : px < 2 ^ 32) (hly : py < 2 ^ 32) :
    Dispatches rt e s "image_recscale" ⌊px⌋.toNat ⌊py⌋.toNat
      [.float32 (Float32.div .binary32 (.finite 1) (.finite factorx)),
       .float32 (Float32.div .binary32 (.finite 1) (.finite factory))] log
      (e.Scale rt .binary32 s (.finite factorx) (.finite factory) log) := by
  have h0 : 0 ≤ px := mul_ofInt_nonneg s.W factorx px hW hx hpx
  have h1 : 0 ≤ py := mul_ofInt_nonneg s.H factory py hH hy hpy
  unfold Env.Scale
  simp only [hpx, hpy, uint32OfFloat_finite rt _ h0 hlx, uint32OfFloat_finite rt _ h1 hly]
  exact callWrap_dispatches rt e _ _ "image_recscale" s _ log

/-- C2 amended, at a concrete input: the 10×2 surface scaled by
float32(0.7) = 11744051/2^24 and by 7/8 under binary32.  The float32 products
are 7 (the exact product 6.99999988 rounded) and 7/4, and the run creates a
7×1 destination image and enqueues over `(7, 1)`. -/
theorem Scale_size_truncated_witness :
    (0 ≤ surface10x2.W ∧ 0 ≤ surface10x2.H ∧ (0 : ℚ) < 11744051 / 16777216 ∧ (0 : ℚ) < 7 / 8 ∧
      Float32.mul .binary32 (Float32.ofInt .binary32 surface10x2.W)
        (.finite (11744051 / 16777216)) = .finite 7 ∧
      Float32.mul .binary32 (Float32.ofInt .binary32 surface10x2.H) (.finite (7 / 8)) =
        .finite (7 / 4) ∧
      (7 : ℚ) < 2 ^ 32 ∧ (7 / 4 : ℚ) < 2 ^ 32) ∧
    okEnv.Scale okRuntime .binary32 surface10x2 (.finite (11744051 / 16777216))
        (.finite (7 / 8)) [] =
      (.ret (some { Format := rgb24, W := 7, H := 1, Pitch := 21,
                    Pixels := List.replicate 21 0 }) none,
        [srcImageCmd 1 surface10x2, dstImageCmd 1 7 1, .SetArg 4 0 (.image 1),
         .SetArg 4 1 (.image 2),
         .SetArg 4 2 (.float32 (Float32.div .binary32 (.finite 1)
           (.finite (11744051 / 16777216)))),
         .SetArg 4 3 (.float32 (Float32.div .binary32 (.finite 1) (.finite (7 / 8)))),
         .EnqueueKernel 2 4 [] [7, 1] [], .EnqueueReadImage 2 2 [0, 0, 0] [7, 1, 1] 0 0,
         surfaceCmd (List.replicate 21 0) 7 1 rgb24]) := by
  have hpx : Float32.mul .binary32 (Float32.ofInt .binary32 surface10x2.W)
      (.finite (11744051 / 16777216)) = .finite 7 := by
    simp only [Float32.ofInt, Float32.round, show surface10x2.W = 10 from rfl]
    rw [round_ten, Float32.mul_finite]
    exact round_ten_by_seven_tenths _
  have hpy : Float32.mul .binary32 (Float32.ofInt .binary32 surface10x2.H) (.finite (7 / 8)) =
      .finite (7 / 4) := by
    simp only [Float32.ofInt, Float32.round, show surface10x2.H = 2 from rfl]
    rw [round_two, Float32.mul_finite]
    exact round_seven_quarters _
  have h := (Scale_size_truncated okRuntime okEnv surface10x2 (11744051 / 16777216) (7 / 8)
    7 (7 / 4) [] (by decide) (by decide) (by norm_num) (by norm_num) hpx hpy (by norm_num)
    (by norm_num)).2.2
  have h7 : ⌊(7 : ℚ)⌋.toNat = 7 := by simp
  simp only [h7, floor_seven_quarters] at h
  exact ⟨⟨by decide, by decide, by norm_num, by norm_num, hpx, hpy, by norm_num, by norm_num⟩,
    h 1 2 4 1 2 0 (List.replicate 20 0) ⟨rgb24, 7, 1, 21, List.replicate 21 0⟩ rfl rfl rfl
      (by decide) rfl rfl (fun _ => rfl) (fun _ => rfl) rfl rfl⟩

/-- C8: for nonzero factors, under either float arithmetic, `Scale` is a
transform by `image_recscale` whose extra arguments are exactly the reciprocal
`float32(1)/factorx` at position 2 and `float32(1)/factory` at position 3
(each run issues exactly `callWrapSeq` whenever the runtime answers its calls
with a success).  Under binary32 the reciprocal bound is `1 / factorx` rounded
to binary32; under exact arithmetic it is `1 / factorx`, and with it the
kernel, which only multiplies, samples the source at
`(x / factorx, y / factory)` for the work-item `(x, y)`. -/
theorem Scale_passes_reciprocals (rt : Runtime) (mode : FloatMode) (e : Env) (s : Surface)
    (factorx factory : ℚ) (log : List Cmd) (hx : factorx ≠ 0) (hy : factory ≠ 0) :
    Dispatches rt e s "image_recscale"
      (rt.uint32OfFloat (Float32.mul mode (Float32.ofInt mode s.W) (.finite factorx)))
      (rt.uint32OfFloat (Float32.mul mode (Float32.ofInt mode s.H) (.finite factory)))
      [.float32 (Float32.div mode (.finite 1) (.finite factorx)),
       .float32 (Float32.div mode (.finite 1) (.finite factory))] log
      (e.Scale rt mode s (.finite factorx) (.finite factory) log) ∧
    (∀ (k : Nat) (a b : Arg),
      extraArgCmds k 0 [a, b] = [Cmd.SetArg k 2 a, Cmd.SetArg k 3 b]) ∧
    Float32.div .binary32 (.finite 1) (.finite factorx) =
      roundBinary32 (decide (factorx < 0)) (1 / factorx) ∧
    Float32.div .binary32 (.finite 1) (.finite factory) =
      roundBinary32 (decide (factory < 0)) (1 / factory) ∧
    Float32.div .exact (.finite 1) (.finite factorx) = .finite (1 / factorx) ∧
    Float32.div .exact (.finite 1) (.finite factory) = .finite (1 / factory) ∧
    (∀ x y : Int,
      image_recscale_q (Float32.div .exact (.finite 1) (.finite factorx)).value
        (Float32.div .exact (.finite 1) (.finite factory)).value (x, y) =
        ((x : ℚ) / factorx, (y : ℚ) / factory)) ∧
    (∀ (α : Type) (read : image2d_t α → ℚ × ℚ → α) (src : image2d_t α) (x y : Int),
      image_recscale read src (Float32.div .exact (.finite 1) (.finite factorx)).value
        (Float32.div .exact (.finite 1) (.finite factory)).value (x, y) =
        read src ((x : ℚ) / factorx, (y : ℚ) / factory)) := by
  have hex : ∀ f : ℚ, f ≠ 0 → Float32.div .exact (.finite 1) (.finite f) = .finite (1 / f) := by
    intro f hf
    rw [Float32.div_finite _ _ _ hf]
    simp [Float32.round, hf]
  have hbin : ∀ f : ℚ, f ≠ 0 → Float32.div .binary32 (.finite 1) (.finite f) =
      roundBinary32 (decide (f < 0)) (1 / f) := by
    intro f hf
    rw [Float32.div_finite _ _ _ hf]
    have h10 : decide ((1 : ℚ) < 0) = false := by
      rw [decide_eq_false_iff_not]
      norm_num
    simp only [Float32.round, h10, Bool.false_xor]
  have hq : ∀ x y : Int,
      image_recscale_q (Float32.div .exact (.finite 1) (.finite factorx)).value
        (Float32.div .exact (.finite 1) (.finite factory)).value (x, y) =
        ((x : ℚ) / factorx, (y : ℚ) / factory) := by
    intro x y
    rw [hex factorx hx, hex factory hy]
    simp only [image_recscale_q, Float32.value, Prod.mk.injEq]
    constructor
    · field_simp
    · field_simp
  refine ⟨callWrap_dispatches rt e _ _ "image_recscale" s _ log, ?_, hbin factorx hx,
    hbin factory hy, hex factorx hx, hex factory hy, hq, ?_⟩
  · intro k a b
    simp [extraArgCmds, List.enumFrom]
  · intro α read src x y
    simp only [image_recscale, hq]

/-- C8 at a concrete input: the 2×2 surface scaled by 2 and by 4 under
binary32, on the runtime where no call fails.  The run binds 1/2 at position
2 and 1/4 at position 3 of `image_recscale` (handle 4) and enqueues it over
`(4, 8)`; with these reciprocals the kernel samples at `(x / 2, y / 4)`. -/
theorem Scale_passes_reciprocals_witness :
    ((2 : ℚ) ≠ 0 ∧ (4 : ℚ) ≠ 0) ∧
    okEnv.Scale okRuntime .binary32 surface2x2 (.finite 2) (.finite 4) [] =
      (.ret (some { Format := rgb24, W := 4, H := 8, Pitch := 12,
                    Pixels := List.replicate 96 0 }) none,
        [srcImageCmd 1 surface2x2, dstImageCmd 1 4 8, .SetArg 4 0 (.image 1),
         .SetArg 4 1 (.image 2), .SetArg 4 2 (.float32 (.finite (1 / 2))),
         .SetArg 4 3 (.float32 (.finite (1 / 4))),
         .EnqueueKernel 2 4 [] [4, 8] [], .EnqueueReadImage 2 2 [0, 0, 0] [4, 8, 1] 0 0,
         surfaceCmd (List.replicate 96 0) 4 8 rgb24]) ∧
    (∀ x y : Int, image_recscale_q (1 / 2) (1 / 4) (x, y) = ((x : ℚ) / 2, (y : ℚ) / 4)) := by
  have hw : okRuntime.uint32OfFloat
      (Float32.mul .binary32 (Float32.ofInt .binary32 surface2x2.W) (.finite 2)) = 4 := by
    have h := scaleDim_two_by_pow okRuntime 1 (by norm_num)
    rw [pow_one] at h
    exact h
  have hh : okRuntime.uint32OfFloat
      (Float32.mul .binary32 (Float32.ofInt .binary32 surface2x2.H) (.finite 4)) = 8 := by
    have h := scaleDim_two_by_pow okRuntime 2 (by norm_num)
    rw [show (2 : ℚ) ^ 2 = 4 by norm_num] at h
    exact h
  have hrx : Float32.div .binary32 (.finite 1) (.finite 2) = .finite (1 / 2) := by
    have h := reciprocal_pow 1 (by norm_num)
    rw [pow_one] at h
    exact h
  have hry : Float32.div .binary32 (.finite 1) (.finite 4) = .finite (1 / 4) := by
    have h := reciprocal_pow 2 (by norm_num)
    rw [show (2 : ℚ) ^ 2 = 4 by norm_num] at h
    exact h
  have h := Scale_passes_reciprocals okRuntime .binary32 okEnv surface2x2 2 4 []
    (by norm_num) (by norm_num)
  have hrun := h.1.2.2
  have hq := h.2.2.2.2.2.2.1
  rw [h.2.2.2.2.1, h.2.2.2.2.2.1] at hq
  simp only [hw, hh, hrx, hry] at hrun
  exact ⟨⟨by norm_num, by norm_num⟩,
    hrun 1 2 4 1 2 0 (List.replicate 95 0) ⟨rgb24, 4, 8, 12, List.replicate 96 0⟩ rfl rfl rfl
      (by decide) rfl rfl (fun _ => rfl) (fun _ => rfl) rfl rfl,
    hq⟩

/-! ## The affine kernels -/

/-- C9: with `p0 = q0 = (0, 0)` the kernel `image_affine2` samples, at every
work-item `p`, the coordinate `image_affine` samples for the same rows `Ax`,
`Ay`, namely `(dot(Ax, p), dot(Ay, p))`, so whatever the sampler and the source
image the two kernels write the same pixel. -/
theorem affine2_zero_pivots (Ax Ay : ℚ × ℚ) (p : Int × Int) :
    image_affine2_q Ax Ay (0, 0) (0, 0) p = image_affine_q Ax Ay p ∧
    image_affine_q Ax Ay p = (dot Ax ((p.1 : ℚ), (p.2 : ℚ)), dot Ay ((p.1 : ℚ), (p.2 : ℚ))) ∧
    (∀ (α : Type) (read : image2d_t α → ℚ × ℚ → α) (src : image2d_t α),
      image_affine2 read src Ax Ay (0, 0) (0, 0) p = image_affine read src Ax Ay p) := by
  have h : image_affine2_q Ax Ay (0, 0) (0, 0) p = image_affine_q Ax Ay p := by
    simp [image_affine2_q, image_affine_q, convert_float2, dot]
  refine ⟨h, rfl, ?_⟩
  intro α read src
  simp only [image_affine2, image_affine, h]

/-! ## The flip kernels -/

/-- C1, evaluated on the 2×2 image `[[A,B],[C,D]]`: the flip kernels sample at
`width - x` and `height - y`, one past the mirror pixel.  With out-of-range
reads going to the nearest in-bounds pixel the results are `[[B,B],[D,D]]`,
`[[C,D],[C,D]]` and `[[D,D],[D,D]]`; with the border colour `Z` of the
sampler `nearest` of the source they are `[[Z,B],[Z,D]]`, `[[Z,Z],[C,D]]` and
`[[Z,Z],[Z,D]]`.  Neither is the reflection `[[B,A],[D,C]]`, `[[C,D],[A,B]]`,
`[[D,C],[B,A]]`. -/
theorem flip_kernels_2x2 :
    dispatch 2 2 (image_flip_h (read_imageui .CLK_ADDRESS_CLAMP_TO_EDGE 'Z') imageABCD) =
      [['B', 'B'], ['D', 'D']] ∧
    dispatch 2 2 (image_flip_v (read_imageui .CLK_ADDRESS_CLAMP_TO_EDGE 'Z') imageABCD) =
      [['C', 'D'], ['C', 'D']] ∧
    dispatch 2 2 (image_flip_hv (read_imageui .CLK_ADDRESS_CLAMP_TO_EDGE 'Z') imageABCD) =
      [['D', 'D'], ['D', 'D']] ∧
    dispatch 2 2 (image_flip_h (read_imageui nearest 'Z') imageABCD) =
      [['Z', 'B'], ['Z', 'D']] ∧
    dispatch 2 2 (image_flip_v (read_imageui nearest 'Z') imageABCD) =
      [['Z', 'Z'], ['C', 'D']] ∧
    dispatch 2 2 (image_flip_hv (read_imageui nearest 'Z') imageABCD) =
      [['Z', 'Z'], ['Z', 'D']] := by
  decide

/-! ## Failure of the destination image -/

/-- When the source image is created and the creation of the destination
image fails, `callWrap` panics on the nil destination after those two calls:
no error is returned. -/
theorem callWrap_dst_failure (rt : Runtime) (e : Env) (dstW dstH : Nat) (kernelName : String)
    (s : Surface) (va : List Arg) (log : List Cmd) (c srcI : Nat) (err : ClError)
    (hb : s.Format.BytesPerPixel = 3) (hc : e.c = some c)
    (hsrc : rt.NewImage2D (log ++ [srcImageCmd c s]) = .ok srcI)
    (hdst : rt.NewImage2D (log ++ [srcImageCmd c s] ++ [dstImageCmd c dstW dstH]) = .error err) :
    e.callWrap rt dstW dstH kernelName s va log =
      (.panicked, log ++ [srcImageCmd c s, dstImageCmd c dstW dstH]) := by
  have h1 : e.NewImage rt s log =
      (.ret (some { clImage := srcI, s := some s, pixels := [], w := 0, h := 0 }) none,
        log ++ [srcImageCmd c s]) := by
    unfold Env.NewImage
    simp only [srcImageCmd] at hsrc
    simp [hb, hc, hsrc, srcImageCmd]
  have h2 : e.NewWImage rt dstW dstH (log ++ [srcImageCmd c s]) =
      (.ret none (some (.cl err)), log ++ [srcImageCmd c s] ++ [dstImageCmd c dstW dstH]) := by
    unfold Env.NewWImage
    simp only [hc, dstImageCmd]
    simp only [dstImageCmd] at hdst
    rw [hdst]
  unfold Env.callWrap
  rw [h1]
  simp only
  rw [h2]
  simp

/-- C3, evaluated where `NewWImage` fails: each dispatching case of `Flip`, and
`Scale` (by 2 in both axes, under binary32), panics after the two image
creations; it does not return a non-nil error with a nil surface. -/
theorem transform_panics_when_NewWImage_fails :
    okEnv.Flip dstFailsRuntime surface2x2 true false [] =
      (.panicked, [srcImageCmd 1 surface2x2, dstImageCmd 1 2 2]) ∧
    okEnv.Flip dstFailsRuntime surface2x2 false true [] =
      (.panicked, [srcImageCmd 1 surface2x2, dstImageCmd 1 2 2]) ∧
    okEnv.Flip dstFailsRuntime surface2x2 true true [] =
      (.panicked, [srcImageCmd 1 surface2x2, dstImageCmd 1 2 2]) ∧
    okEnv.Scale dstFailsRuntime .binary32 surface2x2 (.finite 2) (.finite 2) [] =
      (.panicked, [srcImageCmd 1 surface2x2, dstImageCmd 1 4 4]) ∧
    okEnv.NewWImage dstFailsRuntime 2 2 [srcImageCmd 1 surface2x2] =
      (.ret none (some (.cl { code := -4 })), [srcImageCmd 1 surface2x2, dstImageCmd 1 2 2]) := by
  have hw : dstFailsRuntime.uint32OfFloat
      (Float32.mul .binary32 (Float32.ofInt .binary32 2) (.finite 2)) = 4 := by
    have h := scaleDim_two_by_pow dstFailsRuntime 1 (by norm_num)
    rw [pow_one] at h
    exact h
  refine ⟨by decide, by decide, by decide, ?_, by decide⟩
  unfold Env.Scale
  simp only [show surface2x2.W = 2 from rfl, show surface2x2.H = 2 from rfl, hw]
  exact callWrap_dst_failure dstFailsRuntime okEnv 4 4 "image_recscale" surface2x2 _ [] 1 1
    { code := -4 } rfl rfl rfl rfl

/-! ## Failure of environment construction -/

/-- C4, evaluated where construction fails: when context creation fails, and
when the kernel `image_rotate` does not resolve, `NewEnv` returns the error
together with a non-nil, partly built `Env` (in the second case with a
registry of two names, one mapped to a nil kernel). -/
theorem NewEnv_returns_env_with_error :
    NewEnv contextFailsRuntime [] =
      (.ret (some { platform := { Devices := [{ id := 0, imageSupport := true }] },
                    c := none, cq := none, p := none, kernels := [] })
          (some (.cl { code := -6 })),
        [.NewContextOfDevices [{ id := 0, imageSupport := true }]]) ∧
    (NewEnv kernelFailsRuntime []).1 =
      .ret (some { platform := { Devices := [{ id := 0, imageSupport := true }] },
                   c := some 1, cq := some 2, p := some 3,
                   kernels := [("image_rotate", none), ("image_recscale", some 4)] })
          (some (.cl { code := -46 })) := by
  decide

end Cltransform
